import Mathlib

/-!
Verification of the funding-rate arbitrage engine (trading_bot).

This file gives a shallow embedding of the decision/execution/reconciliation
core of the repository: the two-venue strategy
(src/trading_bot/strategies/funding_arb.py, class FundingArbitrageStrategy)
and the N-venue strategy
(src/trading_bot/strategies/dynamic_funding_arb.py, class
DynamicFundingArbitrageStrategy).

Modelling conventions:
- Python floats are modelled as exact rationals.
- Awaited exchange calls are modelled as oracle inputs: a call that can raise
  is an Except value, an order submission result is collapsed to a success
  Boolean (the source's is_success check on Exception / error-dict results).
- Database persistence, logging and realized-PnL bookkeeping are not part of
  any claim and are omitted from the state; every field a claim mentions is
  modelled.
- The two-venue strategy is modelled in its dual-exchange configuration
  (secondary present, primary exposing a pending-order count), which is the
  configuration the specification describes.
-/

namespace FundingBot

/-- Order side of a market order. -/
inductive Side where
  | buy
  | sell
deriving DecidableEq, Repr

/-- A market order submitted to a venue (venue tag, venue symbol, side, quantity). -/
structure OrderAction where
  venue : String
  symbol : String
  side : Side
  qty : ℚ
deriving DecidableEq, Repr

/-- The two-venue direction strings of funding_arb.py. -/
inductive TwoDir where
  | shortPrimaryLongSecondary
  | longPrimaryShortSecondary
deriving DecidableEq, Repr

/-- One venue-reported position entry: symbol, signed size, entry price. -/
structure PosEntry where
  symbol : String
  size : ℚ
  entry_price : ℚ
deriving DecidableEq, Repr

/-- Boolean list-prefix test (structural, evaluable). -/
def listStartsWith : List Char → List Char → Bool
  | [], _ => true
  | _ :: _, [] => false
  | a :: as, b :: bs => a = b && listStartsWith as bs

/-- Boolean list-infix test (structural, evaluable). -/
def listHasInfix (pat : List Char) : List Char → Bool
  | [] => listStartsWith pat []
  | c :: rest => listStartsWith pat (c :: rest) || listHasInfix pat rest

/-- Python membership test: pat in hay, for strings. -/
def strContains (hay pat : String) : Bool :=
  listHasInfix pat.toList hay.toList

/-- Python str.replace for the single characters - and _ as used in the source
(symbol_secondary.replace with a one-character pattern is a character map). -/
def dashToUnderscore (s : String) : String :=
  String.mk (s.toList.map fun c => if c = '-' then '_' else c)

/-- Python int() truncation toward zero on a rational. -/
def pyInt (q : ℚ) : ℤ :=
  if q < 0 then ⌈q⌉ else ⌊q⌋

/-- Python round-half-to-even of a rational to an integer. -/
def roundHE (q : ℚ) : ℤ :=
  if q - ⌊q⌋ < 1/2 then ⌊q⌋
  else if 1/2 < q - ⌊q⌋ then ⌊q⌋ + 1
  else if Even ⌊q⌋ then ⌊q⌋ else ⌊q⌋ + 1

/-- Python round(x, p): round half-even at p decimal places. -/
def roundPrec (p : ℕ) (x : ℚ) : ℚ :=
  (roundHE (x * 10 ^ p) : ℚ) / 10 ^ p

/-- Fuelled floor of log base 10 on naturals (structural, evaluable). -/
def log10floor : ℕ → ℕ → ℕ
  | 0, _ => 0
  | fuel + 1, n => if n < 10 then 0 else 1 + log10floor fuel (n / 10)

/-- The precision the source derives from a step: 0 when step is at least 1,
otherwise int(abs(log10(step))), which for 0 < step < 1 equals the floor of
log10 of the floor of 1/step. -/
def precOf (step : ℚ) : ℕ :=
  if 1 ≤ step then 0 else log10floor (⌊1/step⌋).toNat (⌊1/step⌋).toNat

/-- Python truthiness of an optional float config entry. -/
def truthyOpt : Option ℚ → Bool
  | none => false
  | some x => decide (x ≠ 0)

/-- The significance threshold 0.000001 used by both strategies when
classifying signed position sizes. -/
def eps : ℚ := 1/1000000

/-! ## Two-venue strategy: FundingArbitrageStrategy (funding_arb.py) -/

/-- Configuration fields of FundingArbitrageStrategy consulted by the claims. -/
structure TwoCfg where
  symbol_primary : String
  symbol_secondary : String
  entry_threshold : ℚ
  position_size : ℚ
  order_size_usd : Option ℚ
  max_position_size : ℚ
  max_position_size_usd : Option ℚ
  auto_revert : Bool
  is_simulation : Bool
  execution_window_minutes : ℕ

/-- Mutable strategy state of FundingArbitrageStrategy (fields the claims
mention; PnL bookkeeping and history-sync timestamps omitted). -/
structure TwoState where
  current_position : Option TwoDir
  current_position_size : ℚ
  quarantine_mode : Bool
  quarantine_reason : String
  last_error_time : ℚ
  error_backoff : ℚ
  last_execution_time : ℚ
  entry_time : Option ℚ
  p_entry_price : ℚ
  s_entry_price : ℚ
deriving DecidableEq, Repr

/-- Result dictionary of verify_positions. -/
structure VerifyResult where
  real_pos_primary : ℚ
  real_pos_secondary : ℚ
  pending_orders_primary : ℕ
  p_entry_price : ℚ
  s_entry_price : ℚ
deriving DecidableEq, Repr

/-- verify_positions: gathers the primary position list, the secondary
position list and the primary pending-order count; any failed query raises
(Except.error). On success it matches entries against the configured symbols
(exact for primary; exact, dash-to-underscore, or the _PERP variant for
secondary), the last match winning, defaulting the signed size to 0 and the
entry prices to their previous values. -/
def verify_positions (cfg : TwoCfg) (s : TwoState)
    (posP posS : Except Unit (List PosEntry)) (pending : Except Unit ℕ) :
    Except Unit VerifyResult :=
  match posP, posS, pending with
  | .ok lp, .ok ls, .ok pc =>
    let accP := lp.foldl
      (fun acc p => if p.symbol = cfg.symbol_primary then (p.size, p.entry_price) else acc)
      ((0 : ℚ), s.p_entry_price)
    let targetPerp := dashToUnderscore cfg.symbol_secondary
    let accS := ls.foldl
      (fun acc p =>
        if p.symbol = cfg.symbol_secondary ∨ p.symbol = targetPerp ∨
            p.symbol = targetPerp ++ "_PERP"
        then (p.size, p.entry_price) else acc)
      ((0 : ℚ), s.s_entry_price)
    .ok ⟨accP.1, accS.1, pc, accP.2, accS.2⟩
  | _, _, _ => .error ()

/-- fetch_all_funding_rates: a failed fetch is replaced by the default rate
0.0 (the source logs the error and keeps the 0.0 initializer). -/
def fetch_all_funding_rates (resP resS : Except Unit ℚ) : ℚ × ℚ :=
  ((match resP with | .ok r => r | .error _ => 0),
   (match resS with | .ok r => r | .error _ => 0))

/-- The direction classification of check_opportunity (and on_start): primary
short or secondary long gives SHORT_PRIMARY_LONG_SECONDARY, else primary long
or secondary short gives LONG_PRIMARY_SHORT_SECONDARY, else no position;
significance threshold eps. -/
def classify_direction (p s : ℚ) : Option TwoDir :=
  if p < -eps ∨ eps < s then some .shortPrimaryLongSecondary
  else if eps < p ∨ s < -eps then some .longPrimaryShortSecondary
  else none

/-- The reconciled size: max of the absolute reported sizes. -/
def reconciled_size (p s : ℚ) : ℚ :=
  max |p| |s|

/-- The runtime state self-healing step of check_opportunity: overwrite the
tracked size and direction with the reconciled values and record the entry
prices extracted by verify_positions. -/
def apply_reconcile (s : TwoState) (vr : VerifyResult) : TwoState :=
  { s with
    current_position_size := reconciled_size vr.real_pos_primary vr.real_pos_secondary
    current_position := classify_direction vr.real_pos_primary vr.real_pos_secondary
    p_entry_price := vr.p_entry_price
    s_entry_price := vr.s_entry_price }

/-- The price sanity guard _validate_price_sanity. -/
def validate_price_sanity (symbol : String) (price : ℚ) : Bool :=
  if strContains symbol "SOL" then decide (10 < price ∧ price < 500)
  else if strContains symbol "ETH" then decide (1000 < price ∧ price < 10000)
  else if strContains symbol "BTC" then decide (20000 < price ∧ price < 200000)
  else true

/-- The common step selection: the larger of the two venue steps when either
is known, otherwise the default 0.0001. -/
def common_step (lStep bStep : ℚ) : ℚ :=
  if 0 < lStep ∨ 0 < bStep then max lStep bStep else 1/10000

/-- Dynamic sizing: floor-truncate raw to a multiple of step with int(), then
apply Python round at the derived precision. -/
def calc_size (step raw : ℚ) : ℚ :=
  roundPrec (precOf step) ((pyInt (raw / step) : ℚ) * step)

/-- The sides of the two entry legs for a direction. -/
def entry_sides : TwoDir → Side × Side
  | .shortPrimaryLongSecondary => (Side.sell, Side.buy)
  | .longPrimaryShortSecondary => (Side.buy, Side.sell)

/-- The opposite order side. -/
def oppositeSide : Side → Side
  | .buy => Side.sell
  | .sell => Side.buy

/-- try_revert of execute_dual_leg_entry: up to the given number of attempts,
submit the closing market order; stop at the first success. The oracle list
holds the per-attempt results (a missing entry is a failure). Returns the
success flag and the submitted orders. -/
def try_revert (venue symbol : String) (side : Side) (qty : ℚ) :
    ℕ → List Bool → Bool × List OrderAction
  | 0, _ => (false, [])
  | fuel + 1, res =>
    let attempt : OrderAction := ⟨venue, symbol, side, qty⟩
    match res with
    | [] =>
      let r := try_revert venue symbol side qty fuel []
      (r.1, attempt :: r.2)
    | b :: rest =>
      if b then (true, [attempt])
      else
        let r := try_revert venue symbol side qty fuel rest
        (r.1, attempt :: r.2)

/-- The two market orders submitted by execute_dual_leg_entry. -/
def entry_orders (cfg : TwoCfg) (direction : TwoDir) (quantity : ℚ) :
    List OrderAction :=
  [⟨"primary", cfg.symbol_primary, (entry_sides direction).1, quantity⟩,
   ⟨"secondary", cfg.symbol_secondary, (entry_sides direction).2, quantity⟩]

/-- execute_dual_leg_entry: simulation commits directly; live submits both
legs, commits on dual success (size += qty), records an error time when both
fail, and on a partial fill either quarantines (auto-revert off) or tries to
revert the filled leg up to 3 times, quarantining when the revert fails. -/
def execute_dual_leg_entry (cfg : TwoCfg) (s : TwoState) (now : ℚ)
    (direction : TwoDir) (quantity : ℚ) (resP resS : Bool)
    (revertRes : List Bool) : TwoState × List OrderAction :=
  if cfg.is_simulation then
    ({ s with
      current_position := some direction
      current_position_size := s.current_position_size + quantity
      entry_time := some now }, [])
  else
    let sides := entry_sides direction
    let orders : List OrderAction := entry_orders cfg direction quantity
    if resP && resS then
      ({ s with
        current_position := some direction
        current_position_size := s.current_position_size + quantity
        entry_time := some now
        error_backoff := 10 }, orders)
    else if !resP && !resS then
      ({ s with last_error_time := now }, orders)
    else
      let s1 := { s with last_error_time := now }
      if cfg.auto_revert then
        if resP then
          let r := try_revert "primary" cfg.symbol_primary (oppositeSide sides.1)
            quantity 3 revertRes
          if r.1 then (s1, orders ++ r.2)
          else ({ s1 with
            quarantine_mode := true
            quarantine_reason := "Primary Revert Failed" }, orders ++ r.2)
        else
          let r := try_revert "secondary" cfg.symbol_secondary (oppositeSide sides.2)
            quantity 3 revertRes
          if r.1 then (s1, orders ++ r.2)
          else ({ s1 with
            quarantine_mode := true
            quarantine_reason := "Secondary Revert Failed" }, orders ++ r.2)
      else
        ({ s1 with
          quarantine_mode := true
          quarantine_reason := "Partial fill / Auto-revert off" }, orders)

/-- execute_position_exit: blocked by quarantine and by the 120 second
execution cooldown; simulation clears directly; live closes the measured
per-leg sizes, clears the position on dual success, and otherwise quarantines
and reduces the tracked size by a confirmed primary closure. The Boolean in
the result marks the source raising an IndexError when no closing task was
created (results[0] on an empty list). -/
def execute_position_exit (cfg : TwoCfg) (s : TwoState) (now : ℚ)
    (exitDir : TwoDir) (vr : VerifyResult) (resP resS : Bool) :
    TwoState × List OrderAction × Bool :=
  if s.quarantine_mode then (s, [], false)
  else if now - s.last_execution_time < 120 then (s, [], false)
  else
    let s0 := { s with last_execution_time := now }
    if cfg.is_simulation then
      ({ s0 with
        current_position := none
        current_position_size := 0
        entry_time := none }, [], false)
    else
      let sideP := match exitDir with
        | .shortPrimaryLongSecondary => Side.buy
        | .longPrimaryShortSecondary => Side.sell
      let sideS := oppositeSide sideP
      let sizeP := |vr.real_pos_primary|
      let sizeS := |vr.real_pos_secondary|
      let ordersP : List OrderAction :=
        if 0 < sizeP then [⟨"primary", cfg.symbol_primary, sideP, sizeP⟩] else []
      let ordersS : List OrderAction :=
        if 0 < sizeS then [⟨"secondary", cfg.symbol_secondary, sideS, sizeS⟩] else []
      let orders := ordersP ++ ordersS
      let resultsList : List Bool :=
        (if 0 < sizeP then [resP] else []) ++ (if 0 < sizeS then [resS] else [])
      match resultsList with
      | [] => (s0, orders, true)
      | r0 :: rest =>
        let pOk := r0
        let sOk := match rest with | [] => true | r1 :: _ => r1
        if pOk && sOk then
          ({ s0 with
            current_position := none
            current_position_size := 0
            entry_time := none }, orders, false)
        else
          let s1 := { s0 with quarantine_mode := true }
          let s2 :=
            if pOk then
              { s1 with current_position_size := s1.current_position_size - sizeP }
            else s1
          (s2, orders, false)

/-- Oracle inputs of one check_opportunity cycle of the two-venue strategy. -/
structure TwoInput where
  now : ℚ
  minute : ℕ
  rateP : Except Unit ℚ
  rateS : Except Unit ℚ
  ticker : Except Bool ℚ
  posP : Except Unit (List PosEntry)
  posS : Except Unit (List PosEntry)
  pending : Except Unit ℕ
  lStep : ℚ
  bStep : ℚ
  entryResP : Bool
  entryResS : Bool
  revertRes : List Bool
  exitResP : Bool
  exitResS : Bool

/-- Output of one cycle: the new state, the submitted orders and the statuses
pushed to the state sink, in order. -/
structure TwoOutput where
  state : TwoState
  orders : List OrderAction
  statuses : List String
deriving DecidableEq, Repr

/-- The outer exception handler of check_opportunity: a rate-limit error
doubles the backoff up to 300 seconds, any other error resets it to 10; both
record the error time. -/
def handle_error (s : TwoState) (now : ℚ) (isRateLimit : Bool) : TwoState :=
  if isRateLimit then
    { s with last_error_time := now, error_backoff := min (s.error_backoff * 2) 300 }
  else
    { s with last_error_time := now, error_backoff := 10 }

/-- The in-window test of the two-venue strategy: the wall-clock minute lies
within execution_window_minutes of the top of the hour. -/
def two_in_window (cfg : TwoCfg) (minute : ℕ) : Prop :=
  minute < cfg.execution_window_minutes ∨ 60 - cfg.execution_window_minutes ≤ minute

instance (cfg : TwoCfg) (minute : ℕ) : Decidable (two_in_window cfg minute) := by
  unfold two_in_window; infer_instance

/-- The sizing-and-entry tail of check_opportunity, entered when flat, in
window, and with no pending primary orders: abort on nonpositive quantity,
enforce the (possibly notional) max position limit, then enter in the spread
direction when the threshold is exceeded, resetting the error backoff. -/
def entry_tail (cfg : TwoCfg) (s1 : TwoState) (inp : TwoInput)
    (price spreadApr : ℚ) (statuses : List String) (tradeQty : ℚ) : TwoOutput :=
  if tradeQty ≤ 0 then ⟨s1, [], statuses⟩
  else
    let effMax :=
      if truthyOpt cfg.max_position_size_usd ∧ 0 < price then
        (cfg.max_position_size_usd.getD 0) / price
      else cfg.max_position_size
    if effMax < s1.current_position_size + tradeQty then
      ⟨s1, [], statuses ++ ["Max Pos Reached"]⟩
    else if cfg.entry_threshold < spreadApr then
      let r := execute_dual_leg_entry cfg s1 inp.now .shortPrimaryLongSecondary
        tradeQty inp.entryResP inp.entryResS inp.revertRes
      ⟨{ r.1 with error_backoff := 10 }, r.2, statuses⟩
    else if spreadApr < -cfg.entry_threshold then
      let r := execute_dual_leg_entry cfg s1 inp.now .longPrimaryShortSecondary
        tradeQty inp.entryResP inp.entryResS inp.revertRes
      ⟨{ r.1 with error_backoff := 10 }, r.2, statuses⟩
    else ⟨{ s1 with error_backoff := 10 }, [], statuses⟩

/-- The exit block of the two-venue cycle, reached while holding a position
inside the window: a SHORT_PRIMARY_LONG_SECONDARY position exits when the
spread has dropped below 0, the opposite direction when it has risen above
0; an exit raise (see execute_position_exit) goes to the outer error
handler. -/
def two_exit_block (cfg : TwoCfg) (s1 : TwoState) (inp : TwoInput)
    (vr : VerifyResult) (spreadApr : ℚ) (statuses : List String) : TwoOutput :=
  match s1.current_position with
  | some TwoDir.shortPrimaryLongSecondary =>
    if spreadApr < 0 then
      let r := execute_position_exit cfg s1 inp.now TwoDir.shortPrimaryLongSecondary
        vr inp.exitResP inp.exitResS
      if r.2.2 then
        ⟨handle_error r.1 inp.now false, r.2.1, statuses ++ ["Error (Wait)"]⟩
      else ⟨r.1, r.2.1, statuses⟩
    else ⟨s1, [], statuses⟩
  | some TwoDir.longPrimaryShortSecondary =>
    if 0 < spreadApr then
      let r := execute_position_exit cfg s1 inp.now TwoDir.longPrimaryShortSecondary
        vr inp.exitResP inp.exitResS
      if r.2.2 then
        ⟨handle_error r.1 inp.now false, r.2.1, statuses ++ ["Error (Wait)"]⟩
      else ⟨r.1, r.2.1, statuses⟩
    else ⟨s1, [], statuses⟩
  | none => ⟨s1, [], statuses⟩

/-- The entry block of the two-venue cycle, reached when flat and inside the
window: pending-order guard, dynamic sizing with the price sanity check, or
the fixed quantity, then the limit-and-threshold tail. -/
def two_entry_block (cfg : TwoCfg) (s1 : TwoState) (inp : TwoInput)
    (vr : VerifyResult) (price spreadApr : ℚ) (statuses : List String) : TwoOutput :=
  if 0 < vr.pending_orders_primary then
    ⟨s1, [], statuses ++ ["Pending Orders (" ++ toString vr.pending_orders_primary ++ ")"]⟩
  else if truthyOpt cfg.order_size_usd then
    if 0 < price then
      if validate_price_sanity cfg.symbol_primary price = false then
        ⟨{ s1 with error_backoff := 300 }, [], statuses ++ ["Price Error"]⟩
      else
        let step := common_step inp.lStep inp.bStep
        let rawSize := (cfg.order_size_usd.getD 0) / price
        entry_tail cfg s1 inp price spreadApr statuses (calc_size step rawSize)
    else ⟨s1, [], statuses⟩
  else entry_tail cfg s1 inp price spreadApr statuses cfg.position_size

/-- One check_opportunity cycle of the two-venue strategy, in source order:
error-backoff cooldown gate, quarantine gate, rate fetch (defaulting failures
to 0), ticker fetch (a raise goes to the outer handler), APR and spread,
position verification (a raise stalls with SYNC_ERROR), window test, state
self-healing, exit logic inside the window, then the entry path guarded by
window, pending orders, sizing, sanity, limits and thresholds. -/
def check_opportunity (cfg : TwoCfg) (s : TwoState) (inp : TwoInput) : TwoOutput :=
  if inp.now - s.last_error_time < s.error_backoff then ⟨s, [], ["Cooldown"]⟩
  else if s.quarantine_mode then ⟨s, [], ["QUARANTINED"]⟩
  else
    let rates := fetch_all_funding_rates inp.rateP inp.rateS
    match inp.ticker with
    | .error isRL => ⟨handle_error s inp.now isRL, [], ["Error (Wait)"]⟩
    | .ok price =>
      let aprPrimary := rates.1 * 24 * 365
      let aprSecondary := rates.2 * 24 * 365
      let spreadApr := aprPrimary - aprSecondary
      match verify_positions cfg s inp.posP inp.posS inp.pending with
      | .error _ => ⟨s, [], ["SYNC_ERROR"]⟩
      | .ok vr =>
        let waitStatuses : List String :=
          if two_in_window cfg inp.minute then [] else ["Waiting (Window)"]
        let s1 := apply_reconcile s vr
        let mainStatus :=
          if s1.current_position.isSome then "Monitoring Exit" else "Scanning"
        let statuses := waitStatuses ++ [mainStatus]
        if s1.current_position.isSome then
          if two_in_window cfg inp.minute then
            two_exit_block cfg s1 inp vr spreadApr statuses
          else ⟨s1, [], statuses⟩
        else
          if ¬ two_in_window cfg inp.minute then ⟨s1, [], statuses⟩
          else two_entry_block cfg s1 inp vr price spreadApr statuses

/-! ## N-venue strategy: DynamicFundingArbitrageStrategy (dynamic_funding_arb.py) -/

/-- Configuration of DynamicFundingArbitrageStrategy consulted by the claims.
The field exSym models get_ex_symbol: the exchange-specific symbol for the
configured pair on a venue. -/
structure DynCfg where
  entry_threshold_apr : ℚ
  exit_threshold_apr : ℚ
  order_size_usd : ℚ
  is_simulation : Bool
  execution_window_minutes : ℕ
  exSym : String → String

/-- Mutable state of DynamicFundingArbitrageStrategy: the tracked
(short venue, long venue) pair, asset-quantity size, and the unbalanced flag. -/
structure DynState where
  current_pair : Option (String × String)
  current_position_size : ℚ
  has_unbalanced_position : Bool
deriving DecidableEq, Repr

/-- Accumulator of the position scan of sync_state_from_exchanges. -/
structure BestLegs where
  bestShortEx : Option String
  maxShortSize : ℚ
  bestLongEx : Option String
  maxLongSize : ℚ
deriving DecidableEq, Repr

/-- One position entry folded into the scan of sync_state_from_exchanges:
entries matching the venue symbol update the largest short or largest long
accumulator under the eps significance threshold. -/
def scan_pos (exSymbol : String) (acc : BestLegs) (exName : String)
    (p : PosEntry) : BestLegs :=
  if p.symbol = exSymbol then
    if p.size < -eps then
      if acc.maxShortSize < |p.size| then
        { acc with bestShortEx := some exName, maxShortSize := |p.size| }
      else acc
    else if eps < p.size then
      if acc.maxLongSize < p.size then
        { acc with bestLongEx := some exName, maxLongSize := p.size }
      else acc
    else acc
  else acc

/-- One venue folded into the scan of sync_state_from_exchanges: a venue
whose position query raised is skipped (the source logs and continues), a
successful venue contributes its matching entries in order. -/
def scan_venue (cfg : DynCfg) (acc : BestLegs)
    (r : String × Except Unit (List PosEntry)) : BestLegs :=
  match r.2 with
  | .error _ => acc
  | .ok ps => ps.foldl (fun a p => scan_pos (cfg.exSym r.1) a r.1 p) acc

/-- The full scan of sync_state_from_exchanges over all enabled venues. -/
def scan_results (cfg : DynCfg)
    (results : List (String × Except Unit (List PosEntry))) : BestLegs :=
  results.foldl (scan_venue cfg) ⟨none, 0, none, 0⟩

/-- sync_state_from_exchanges: classify from the scanned legs. Both legs
found: track the (short, long) pair with the smaller magnitude as size.
Exactly one leg: clear the pair, zero the size, mark unbalanced. No leg:
clear everything. The previous state is not consulted. -/
def sync_state_from_exchanges (cfg : DynCfg)
    (results : List (String × Except Unit (List PosEntry))) : DynState :=
  let b := scan_results cfg results
  match b.bestShortEx, b.bestLongEx with
  | some vs, some vl => ⟨some (vs, vl), min b.maxShortSize b.maxLongSize, false⟩
  | some _, none => ⟨none, 0, true⟩
  | none, some _ => ⟨none, 0, true⟩
  | none, none => ⟨none, 0, false⟩

/-- The successful rate fetches of one cycle, in venue order, as
(venue, hourly rate) pairs; failed fetches are excluded. -/
def dyn_ex_rates (rates : List (String × Except Unit ℚ)) : List (String × ℚ) :=
  rates.filterMap fun p =>
    match p.2 with
    | .ok r => some (p.1, r)
    | .error _ => none

/-- The best-pair search of check_opportunity: over all ordered pairs of
distinct venues with an APR, keep the pair maximizing APR(short) minus
APR(long); initial best spread is -1 with no pair. -/
def dyn_best_pair (exApr : List (String × ℚ)) : ℚ × Option (String × String) :=
  exApr.foldl
    (fun acc p1 =>
      exApr.foldl
        (fun acc2 p2 =>
          if p1.1 = p2.1 then acc2
          else if acc2.1 < p1.2 - p2.2 then (p1.2 - p2.2, some (p1.1, p2.1))
          else acc2)
        acc)
    (-1, none)

/-- Oracle inputs of one cycle of the N-venue strategy. -/
structure DynInput where
  rates : List (String × Except Unit ℚ)
  minute : ℕ
  price : Except Unit ℚ
  entryShortOk : Bool
  entryLongOk : Bool
  exitShortOk : Bool
  exitLongOk : Bool

/-- The entry quantity of execute_entry: notional over price when the price
is positive, otherwise 0; no step truncation is applied. -/
def dyn_entry_qty (usd price : ℚ) : ℚ :=
  if 0 < price then usd / price else 0

/-- execute_entry: abort on nonpositive quantity; simulation commits
directly; live submits the short and long legs, commits pair and size on full
success and otherwise marks the strategy unbalanced. -/
def dyn_execute_entry (cfg : DynCfg) (s : DynState) (inp : DynInput)
    (pair : String × String) (price : ℚ) : DynState × List OrderAction :=
  let qty := dyn_entry_qty cfg.order_size_usd price
  if qty ≤ 0 then (s, [])
  else if cfg.is_simulation then
    ({ s with current_pair := some pair, current_position_size := qty }, [])
  else
    let orders : List OrderAction :=
      [⟨pair.1, cfg.exSym pair.1, Side.sell, qty⟩,
       ⟨pair.2, cfg.exSym pair.2, Side.buy, qty⟩]
    if inp.entryShortOk && inp.entryLongOk then
      (⟨some pair, qty, false⟩, orders)
    else
      ({ s with has_unbalanced_position := true }, orders)

/-- execute_exit: close both tracked legs at the tracked size; simulation and
full success clear the pair and the size, a failed or partial exit leaves the
state untouched (the source only logs). -/
def dyn_execute_exit (cfg : DynCfg) (s : DynState) (inp : DynInput) :
    DynState × List OrderAction :=
  match s.current_pair with
  | none => (s, [])
  | some (sEx, lEx) =>
    let qty := s.current_position_size
    if cfg.is_simulation then
      ({ s with current_pair := none, current_position_size := 0 }, [])
    else
      let orders : List OrderAction :=
        [⟨sEx, cfg.exSym sEx, Side.buy, qty⟩,
         ⟨lEx, cfg.exSym lEx, Side.sell, qty⟩]
      if inp.exitShortOk && inp.exitLongOk then
        ({ s with current_pair := none, current_position_size := 0 }, orders)
      else (s, orders)

/-- The minutes-from-hour distance of the N-venue window test. -/
def dyn_minutes_from_hour (minute : ℕ) : ℕ :=
  if minute ≤ 30 then minute else 60 - minute

/-- The exit-monitoring block of the N-venue cycle: the spread of the
tracked pair (a missing APR defaults to 0) triggers execute_exit when below
the exit threshold; no window test is applied. -/
def dyn_monitor_exit (cfg : DynCfg) (s : DynState) (inp : DynInput)
    (exApr : List (String × ℚ)) (sEx lEx : String) :
    DynState × List OrderAction :=
  let currentSpread := ((exApr.lookup sEx).getD 0) - ((exApr.lookup lEx).getD 0)
  if currentSpread < cfg.exit_threshold_apr then dyn_execute_exit cfg s inp
  else (s, [])

/-- The entry block of the N-venue cycle: blocked while unbalanced; the best
pair is entered when its spread exceeds the threshold and the minute lies
within the window. A best spread above the threshold with no pair would
raise in the source logging call; the outer handler leaves the state
unchanged. -/
def dyn_try_enter (cfg : DynCfg) (s : DynState) (inp : DynInput)
    (best : ℚ × Option (String × String)) (price : ℚ) :
    DynState × List OrderAction :=
  if s.has_unbalanced_position then (s, [])
  else if cfg.entry_threshold_apr < best.1 then
    if dyn_minutes_from_hour inp.minute ≤ cfg.execution_window_minutes then
      match best.2 with
      | some pair => dyn_execute_entry cfg s inp pair price
      | none => (s, [])
    else (s, [])
  else (s, [])

/-- One check_opportunity cycle of the N-venue strategy, in source order:
collect the successful rate fetches (aborting when none reported), compute
APRs and the best pair, fetch the reference ticker (a raise aborts via the
outer handler), then with a position monitor the tracked pair spread for
exit, and when flat try an entry. -/
def dyn_check_opportunity (cfg : DynCfg) (s : DynState) (inp : DynInput) :
    DynState × List OrderAction :=
  let exRates := dyn_ex_rates inp.rates
  if exRates.isEmpty then (s, [])
  else
    let exApr := exRates.map fun p => (p.1, p.2 * 24 * 365)
    let best := dyn_best_pair exApr
    match inp.price with
    | .error _ => (s, [])
    | .ok price =>
      match s.current_pair with
      | some (sEx, lEx) => dyn_monitor_exit cfg s inp exApr sEx lEx
      | none => dyn_try_enter cfg s inp best price

/-- The states a DynamicFundingArbitrageStrategy instance can reach: the
initial flat state, any state produced by a reconciliation, and any state
produced by a decision cycle. -/
inductive DynReachable (cfg : DynCfg) : DynState → Prop where
  | init : DynReachable cfg ⟨none, 0, false⟩
  | sync (s : DynState) (results : List (String × Except Unit (List PosEntry)))
      (hs : DynReachable cfg s) :
      DynReachable cfg (sync_state_from_exchanges cfg results)
  | cycle (s : DynState) (inp : DynInput) (hs : DynReachable cfg s) :
      DynReachable cfg (dyn_check_opportunity cfg s inp).1

/-! ## Shared lemmas -/

/-- With quarantine_mode set, a cycle leaves the state untouched and submits
no orders: it returns at the cooldown gate or at the quarantine gate. -/
lemma cycle_quarantine_gate (cfg : TwoCfg) (s : TwoState) (inp : TwoInput)
    (hq : s.quarantine_mode = true) :
    (check_opportunity cfg s inp).state = s ∧
    (check_opportunity cfg s inp).orders = [] := by
  unfold check_opportunity
  split_ifs with h1 <;> simp [hq]

/-- With quarantine_mode set and the strategy not inside its error backoff,
the cycle reports exactly the QUARANTINED status. -/
lemma cycle_quarantine_status (cfg : TwoCfg) (s : TwoState) (inp : TwoInput)
    (hq : s.quarantine_mode = true)
    (hcool : ¬ inp.now - s.last_error_time < s.error_backoff) :
    check_opportunity cfg s inp = ⟨s, [], ["QUARANTINED"]⟩ := by
  unfold check_opportunity
  rw [if_neg hcool, if_pos hq]

/-- With quarantine_mode set, execute_position_exit returns immediately. -/
lemma exit_quarantine_gate (cfg : TwoCfg) (s : TwoState) (now : ℚ)
    (dir : TwoDir) (vr : VerifyResult) (rp rs : Bool)
    (hq : s.quarantine_mode = true) :
    execute_position_exit cfg s now dir vr rp rs = (s, [], false) := by
  unfold execute_position_exit
  rw [if_pos hq]

/-! ## C6: quarantine blocks all automated trading -/

/-- C6. While quarantine_mode is set, no automated entry or exit executes and
the state (including the flag itself, which the strategy never clears) is
untouched: check_opportunity submits no order and returns the state unchanged,
reporting QUARANTINED whenever the cycle is not inside its error backoff, and
execute_position_exit returns immediately. -/
theorem quarantine_blocks_all_automation (cfg : TwoCfg) (s : TwoState)
    (inp : TwoInput) (hq : s.quarantine_mode = true) :
    (check_opportunity cfg s inp).state = s ∧
    (check_opportunity cfg s inp).orders = [] ∧
    (¬ inp.now - s.last_error_time < s.error_backoff →
      (check_opportunity cfg s inp).statuses = ["QUARANTINED"]) ∧
    (∀ now dir vr rp rs, execute_position_exit cfg s now dir vr rp rs = (s, [], false)) := by
  refine ⟨(cycle_quarantine_gate cfg s inp hq).1, (cycle_quarantine_gate cfg s inp hq).2,
    fun hcool => ?_, fun now dir vr rp rs => exit_quarantine_gate cfg s now dir vr rp rs hq⟩
  rw [cycle_quarantine_status cfg s inp hq hcool]

/-- A concrete configuration used by witness statements. -/
def cfgW : TwoCfg :=
  ⟨"SOL-USDC", "SOL-USDC", 1/100, 1, none, 10, none, false, false, 5⟩

/-- A concrete quarantined state used by the C6 witness. -/
def sQuarantined : TwoState :=
  ⟨none, 0, true, "manual", 0, 10, 0, none, 0, 0⟩

/-- A concrete cycle input used by witness statements. -/
def inpW : TwoInput :=
  ⟨100, 0, .ok 0, .ok 0, .ok 100, .ok [], .ok [], .ok 0, 0, 0,
    true, true, [], true, true⟩

/-- C6 witness: a concrete quarantined state is left untouched by a cycle and
by an exit attempt. -/
theorem quarantine_blocks_all_automation_witness :
    (check_opportunity cfgW sQuarantined inpW).state = sQuarantined ∧
    (check_opportunity cfgW sQuarantined inpW).orders = [] ∧
    (check_opportunity cfgW sQuarantined inpW).statuses = ["QUARANTINED"] ∧
    execute_position_exit cfgW sQuarantined 50 TwoDir.shortPrimaryLongSecondary
      ⟨1, -1, 0, 0, 0⟩ true true = (sQuarantined, [], false) := by
  have h := quarantine_blocks_all_automation cfgW sQuarantined inpW rfl
  exact ⟨h.1, h.2.1, h.2.2.1 (by norm_num [inpW, sQuarantined]),
    h.2.2.2 50 TwoDir.shortPrimaryLongSecondary ⟨1, -1, 0, 0, 0⟩ true true⟩

/-! ## C1: reconciliation failure handling -/

/-- A failed position verification stalls the two-venue cycle: SYNC_ERROR is
reported and the state is returned untouched. -/
lemma cycle_sync_error_stalls (cfg : TwoCfg) (s : TwoState) (inp : TwoInput)
    (price : ℚ)
    (hcool : ¬ inp.now - s.last_error_time < s.error_backoff)
    (hq : s.quarantine_mode = false)
    (hticker : inp.ticker = .ok price)
    (hverify : verify_positions cfg s inp.posP inp.posS inp.pending = .error ()) :
    check_opportunity cfg s inp = ⟨s, [], ["SYNC_ERROR"]⟩ := by
  unfold check_opportunity
  rw [if_neg hcool, hq, hticker, hverify]
  simp

/-- The venue filter keeping only the successful position queries. -/
def okOnly (results : List (String × Except Unit (List PosEntry))) :
    List (String × Except Unit (List PosEntry)) :=
  results.filter fun r => match r.2 with | .ok _ => true | .error _ => false

/-- The scan fold ignores venues whose query failed, from any accumulator. -/
lemma scan_fold_skips_failures (cfg : DynCfg)
    (results : List (String × Except Unit (List PosEntry))) :
    ∀ acc : BestLegs,
      results.foldl (scan_venue cfg) acc = (okOnly results).foldl (scan_venue cfg) acc := by
  induction results with
  | nil => intro acc; rfl
  | cons r rest ih =>
    intro acc
    cases r with
    | mk name res =>
      cases res with
      | error e => simpa [okOnly, scan_venue] using ih acc
      | ok ps => simpa [okOnly, scan_venue] using ih (scan_venue cfg acc (name, .ok ps))

/-- The N-venue scan ignores venues whose query failed: scanning a result
list is scanning its successful sublist. -/
lemma scan_results_skips_failures (cfg : DynCfg)
    (results : List (String × Except Unit (List PosEntry))) :
    scan_results cfg results = scan_results cfg (okOnly results) := by
  unfold scan_results
  exact scan_fold_skips_failures cfg results _

/-- C1 (amended). The two-venue strategy is fail-closed: when any position or
pending-order query fails, verify_positions raises and check_opportunity
reports SYNC_ERROR, returning with current_position, current_position_size
and quarantine state exactly as before. The N-venue
sync_state_from_exchanges, however, does not abort on a single query
failure: it skips the failed venues and recomputes the state from the
remaining ones. -/
theorem reconciliation_failure_handling (cfg : TwoCfg) (s : TwoState)
    (inp : TwoInput) (price : ℚ) (dcfg : DynCfg)
    (results : List (String × Except Unit (List PosEntry)))
    (hcool : ¬ inp.now - s.last_error_time < s.error_backoff)
    (hq : s.quarantine_mode = false)
    (hticker : inp.ticker = .ok price)
    (hfail : inp.posP = .error () ∨ inp.posS = .error () ∨ inp.pending = .error ()) :
    check_opportunity cfg s inp = ⟨s, [], ["SYNC_ERROR"]⟩ ∧
    sync_state_from_exchanges dcfg results =
      sync_state_from_exchanges dcfg (okOnly results) := by
  constructor
  · apply cycle_sync_error_stalls cfg s inp price hcool hq hticker
    unfold verify_positions
    rcases hP : inp.posP with e | lp <;> rcases hS : inp.posS with e' | ls <;>
      rcases hPc : inp.pending with e'' | pc <;> simp_all
  · unfold sync_state_from_exchanges
    rw [scan_results_skips_failures dcfg results]

/-- The venue symbol map used by the N-venue examples: every venue trades the
configured pair under the same name. -/
def exSymW : String → String := fun _ => "SOL-USDC"

/-- A concrete N-venue configuration used by examples. -/
def dcfgW : DynCfg :=
  ⟨5/100, 0, 100, false, 5, exSymW⟩

/-- C1 counterexample. A strategy tracking a 5-contract position hedged
between two venues runs a reconciliation in which the short venue's query
fails while the long venue reports its leg: the N-venue reconciliation does
not abort and does not preserve the tracked state — it resets the pair to
none, the size to 0 and flags the strategy unbalanced. -/
theorem reconciliation_failure_counterexample :
    sync_state_from_exchanges dcfgW
        [("lighter", .error ()), ("backpack", .ok [⟨"SOL-USDC", 5, 100⟩])] =
      ⟨none, 0, true⟩ ∧
    sync_state_from_exchanges dcfgW
        [("lighter", .error ()), ("backpack", .ok [⟨"SOL-USDC", 5, 100⟩])] ≠
      ⟨some ("lighter", "backpack"), 5, false⟩ := by
  have : sync_state_from_exchanges dcfgW
      [("lighter", .error ()), ("backpack", .ok [⟨"SOL-USDC", 5, 100⟩])] =
      ⟨none, 0, true⟩ := by
    norm_num [sync_state_from_exchanges, scan_results, scan_venue, scan_pos,
      dcfgW, exSymW, eps]
  exact ⟨this, by rw [this]; simp⟩

/-- C1 witness: a concrete two-venue cycle whose secondary position query
fails stalls with SYNC_ERROR and an unchanged state, while a concrete
N-venue scan equals the scan of its successful sublist. -/
theorem reconciliation_failure_handling_witness :
    check_opportunity cfgW ⟨none, 0, false, "", 0, 10, 0, none, 0, 0⟩
        ⟨100, 0, .ok 0, .ok 0, .ok 100, .ok [], .error (), .ok 0, 0, 0,
          true, true, [], true, true⟩ =
      ⟨⟨none, 0, false, "", 0, 10, 0, none, 0, 0⟩, [], ["SYNC_ERROR"]⟩ ∧
    sync_state_from_exchanges dcfgW [("lighter", .error ())] =
      sync_state_from_exchanges dcfgW (okOnly [("lighter", .error ())]) :=
  reconciliation_failure_handling cfgW ⟨none, 0, false, "", 0, 10, 0, none, 0, 0⟩
    ⟨100, 0, .ok 0, .ok 0, .ok 100, .ok [], .error (), .ok 0, 0, 0,
      true, true, [], true, true⟩ 100 dcfgW [("lighter", .error ())]
    (by norm_num) rfl rfl (Or.inr (Or.inl rfl))

/-! ## C4: two-venue direction classification and size -/

/-- C4. Two-venue reconciliation classification, with short and long read as
the significance tests of the source (beyond the eps threshold): a
significantly short primary or long secondary classifies as
SHORT_PRIMARY_LONG_SECONDARY; otherwise a significantly long primary or
short secondary classifies as LONG_PRIMARY_SHORT_SECONDARY; otherwise no
position. The reconciled tracked size is the maximum of the two absolute
reported sizes, never an average. -/
theorem two_venue_classification (p s : ℚ) (st : TwoState) (vr : VerifyResult) :
    (p < -eps ∨ eps < s →
      classify_direction p s = some TwoDir.shortPrimaryLongSecondary) ∧
    (¬ (p < -eps ∨ eps < s) → (eps < p ∨ s < -eps) →
      classify_direction p s = some TwoDir.longPrimaryShortSecondary) ∧
    (|p| ≤ eps → |s| ≤ eps → classify_direction p s = none) ∧
    (apply_reconcile st vr).current_position_size =
      max |vr.real_pos_primary| |vr.real_pos_secondary| ∧
    (apply_reconcile st vr).current_position =
      classify_direction vr.real_pos_primary vr.real_pos_secondary := by
  refine ⟨fun h => ?_, fun h1 h2 => ?_, fun hp hs => ?_, rfl, rfl⟩
  · unfold classify_direction
    rw [if_pos h]
  · unfold classify_direction
    rw [if_neg h1, if_pos h2]
  · unfold classify_direction
    rw [abs_le] at hp hs
    rw [if_neg, if_neg]
    · rintro (h | h) <;> linarith [hp.1, hp.2, hs.1, hs.2]
    · rintro (h | h) <;> linarith [hp.1, hp.2, hs.1, hs.2]

/-- C4 witness: concrete classifications — a short primary classifies as
direction A, a long primary with a flat secondary as direction B, a flat
pair as no position, and the reconciled size of a skewed pair is the larger
magnitude. -/
theorem two_venue_classification_witness :
    classify_direction (-2) 2 = some TwoDir.shortPrimaryLongSecondary ∧
    classify_direction 2 0 = some TwoDir.longPrimaryShortSecondary ∧
    classify_direction 0 0 = none ∧
    (apply_reconcile ⟨none, 0, false, "", 0, 10, 0, none, 0, 0⟩
        ⟨-2, 3/2, 0, 100, 100⟩).current_position_size = max |(-2 : ℚ)| |(3/2 : ℚ)| := by
  have h1 := (two_venue_classification (-2) 2 ⟨none, 0, false, "", 0, 10, 0, none, 0, 0⟩
    ⟨-2, 3/2, 0, 100, 100⟩).1 (by norm_num [eps])
  have h2 := (two_venue_classification 2 0 ⟨none, 0, false, "", 0, 10, 0, none, 0, 0⟩
    ⟨-2, 3/2, 0, 100, 100⟩).2.1 (by norm_num [eps]) (by norm_num [eps])
  have h3 := (two_venue_classification 0 0 ⟨none, 0, false, "", 0, 10, 0, none, 0, 0⟩
    ⟨-2, 3/2, 0, 100, 100⟩).2.2.1 (by norm_num [eps]) (by norm_num [eps])
  have h4 := (two_venue_classification 0 0 ⟨none, 0, false, "", 0, 10, 0, none, 0, 0⟩
    ⟨-2, 3/2, 0, 100, 100⟩).2.2.2.1
  exact ⟨h1, h2, h3, h4⟩

/-! ## C10: price sanity guard -/

/-- C10. The price sanity guard is fail-open for unrecognized symbols: a
symbol containing none of SOL, ETH, BTC passes every price, including zero
and negative ones. Recognized symbols pass exactly the prices strictly
inside their band, the classes tested in source order (SOL, then ETH, then
BTC). A failing check halts the entry path of the cycle with no order and
the maximum 300 second error backoff, reporting a price error. -/
theorem price_sanity_guard (sym : String) (price : ℚ) :
    (strContains sym "SOL" = false → strContains sym "ETH" = false →
      strContains sym "BTC" = false → validate_price_sanity sym price = true) ∧
    (strContains sym "SOL" = true →
      (validate_price_sanity sym price = true ↔ 10 < price ∧ price < 500)) ∧
    (strContains sym "SOL" = false → strContains sym "ETH" = true →
      (validate_price_sanity sym price = true ↔ 1000 < price ∧ price < 10000)) ∧
    (strContains sym "SOL" = false → strContains sym "ETH" = false →
      strContains sym "BTC" = true →
      (validate_price_sanity sym price = true ↔ 20000 < price ∧ price < 200000)) ∧
    (∀ (cfg : TwoCfg) (st : TwoState) (inp : TwoInput) (vr : VerifyResult),
      ¬ inp.now - st.last_error_time < st.error_backoff →
      st.quarantine_mode = false →
      inp.ticker = .ok price →
      verify_positions cfg st inp.posP inp.posS inp.pending = .ok vr →
      classify_direction vr.real_pos_primary vr.real_pos_secondary = none →
      two_in_window cfg inp.minute →
      vr.pending_orders_primary = 0 →
      truthyOpt cfg.order_size_usd = true →
      0 < price →
      validate_price_sanity cfg.symbol_primary price = false →
      (check_opportunity cfg st inp).orders = [] ∧
      (check_opportunity cfg st inp).state.error_backoff = 300 ∧
      (check_opportunity cfg st inp).statuses = ["Scanning", "Price Error"]) := by
  refine ⟨fun h1 h2 h3 => ?_, fun h1 => ?_, fun h1 h2 => ?_, fun h1 h2 h3 => ?_,
    fun cfg st inp vr hcool hq hticker hverify hflat hwin hpend husd hpos hsane => ?_⟩
  · unfold validate_price_sanity
    rw [h1, h2, h3]; rfl
  · unfold validate_price_sanity
    rw [h1]; simp
  · unfold validate_price_sanity
    rw [h1, h2]; simp
  · unfold validate_price_sanity
    rw [h1, h2, h3]; simp
  · unfold check_opportunity
    rw [if_neg hcool, hq, hticker, hverify]
    simp [apply_reconcile, two_entry_block, hflat, hwin, hpend, husd, hpos, hsane]

/-- A concrete flat strategy state shared by witness statements. -/
def stFlat : TwoState :=
  ⟨none, 0, false, "", 0, 10, 0, none, 0, 0⟩

/-- The configuration of the C10 witness: dynamic notional sizing on a SOL
symbol. -/
def cfgSanity : TwoCfg :=
  ⟨"SOL-USDC", "SOL-USDC", 1/100, 0, some 100, 10, none, false, false, 5⟩

/-- The input of the C10 witness: an insane 600 quote for a SOL symbol. -/
def inpSanity : TwoInput :=
  ⟨100, 0, .ok 0, .ok 0, .ok 600, .ok [], .ok [], .ok 0, 0, 0,
    true, true, [], true, true⟩

/-- C10 witness: the guard passes an unknown symbol at a negative price,
bands recognized symbols, and a concrete cycle quoting SOL at 600 halts with
no order, a 300 second backoff and a price error report. -/
theorem price_sanity_guard_witness :
    validate_price_sanity "XRP-USDC" (-5) = true ∧
    (validate_price_sanity "SOL-USDC" 600 = true ↔ (10 : ℚ) < 600 ∧ (600 : ℚ) < 500) ∧
    (validate_price_sanity "ETH-USDC" 5000 = true ↔
      (1000 : ℚ) < 5000 ∧ (5000 : ℚ) < 10000) ∧
    (validate_price_sanity "BTC-USDC" 50000 = true ↔
      (20000 : ℚ) < 50000 ∧ (50000 : ℚ) < 200000) ∧
    (check_opportunity cfgSanity stFlat inpSanity).orders = [] ∧
    (check_opportunity cfgSanity stFlat inpSanity).state.error_backoff = 300 ∧
    (check_opportunity cfgSanity stFlat inpSanity).statuses = ["Scanning", "Price Error"] := by
  have hsol : strContains "SOL-USDC" "SOL" = true := by decide
  have hsane : validate_price_sanity "SOL-USDC" 600 = false := by
    norm_num [validate_price_sanity, hsol]
  have h5 := (price_sanity_guard "SOL-USDC" 600).2.2.2.2 cfgSanity stFlat inpSanity
    ⟨0, 0, 0, 0, 0⟩ (by norm_num [inpSanity, stFlat]) rfl rfl rfl
    (by norm_num [classify_direction, eps])
    (by norm_num [two_in_window, cfgSanity, inpSanity])
    rfl (by norm_num [truthyOpt, cfgSanity]) (by norm_num) hsane
  exact ⟨(price_sanity_guard "XRP-USDC" (-5)).1 (by decide) (by decide) (by decide),
    (price_sanity_guard "SOL-USDC" 600).2.1 hsol,
    (price_sanity_guard "ETH-USDC" 5000).2.2.1 (by decide) (by decide),
    (price_sanity_guard "BTC-USDC" 50000).2.2.2.1 (by decide) (by decide) (by decide),
    h5.1, h5.2.1, h5.2.2⟩

/-! ## C2: partial entry fills -/

/-- The venue of the single filled entry leg of a partial fill. -/
def filled_leg_venue (resP : Bool) : String :=
  if resP then "primary" else "secondary"

/-- The venue symbol of the single filled entry leg of a partial fill. -/
def filled_leg_symbol (cfg : TwoCfg) (resP : Bool) : String :=
  if resP then cfg.symbol_primary else cfg.symbol_secondary

/-- The entry side of the single filled entry leg of a partial fill. -/
def filled_leg_side (direction : TwoDir) (resP : Bool) : Side :=
  if resP then (entry_sides direction).1 else (entry_sides direction).2

/-- try_revert succeeds exactly when one of the first n oracle attempt
results is a success, submits at most n orders, and every submitted order is
the closing market order on the given venue with the given side and
quantity. -/
lemma try_revert_spec (v sym : String) (side : Side) (qty : ℚ) (n : ℕ) :
    ∀ res : List Bool,
      (try_revert v sym side qty n res).1 = (res.take n).any id ∧
      (try_revert v sym side qty n res).2.length ≤ n ∧
      ∀ o ∈ (try_revert v sym side qty n res).2, o = ⟨v, sym, side, qty⟩ := by
  induction n with
  | zero => intro res; simp [try_revert]
  | succ n ih =>
    intro res
    cases res with
    | nil =>
      have h := ih []
      refine ⟨by simp [try_revert, h.1], by simpa [try_revert] using h.2.1, ?_⟩
      intro o ho
      rcases (by simpa [try_revert] using ho : o = _ ∨ o ∈ _) with h' | h'
      · exact h'
      · exact h.2.2 o h'
    | cons b rest =>
      cases b with
      | true => refine ⟨by simp [try_revert], by simp [try_revert], ?_⟩
                intro o ho
                simpa [try_revert] using ho
      | false =>
        have h := ih rest
        refine ⟨by simp [try_revert, h.1], by simpa [try_revert] using h.2.1, ?_⟩
        intro o ho
        rcases (by simpa [try_revert] using ho : o = _ ∨ o ∈ _) with h' | h'
        · exact h'
        · exact h.2.2 o h'

/-- The quarantine reason recorded when the revert of the filled leg fails. -/
def filled_leg_reason (resP : Bool) : String :=
  if resP then "Primary Revert Failed" else "Secondary Revert Failed"

/-- Closed form of execute_dual_leg_entry on a live partial fill. -/
lemma exec_entry_partial_eq (cfg : TwoCfg) (s : TwoState) (now qty : ℚ)
    (dir : TwoDir) (rev : List Bool) (resP resS : Bool)
    (hsim : cfg.is_simulation = false) (hpart : resP ≠ resS) :
    execute_dual_leg_entry cfg s now dir qty resP resS rev =
      if cfg.auto_revert then
        (if (try_revert (filled_leg_venue resP) (filled_leg_symbol cfg resP)
              (oppositeSide (filled_leg_side dir resP)) qty 3 rev).1 then
           { s with last_error_time := now }
         else
           { s with
             last_error_time := now
             quarantine_mode := true
             quarantine_reason := filled_leg_reason resP },
         entry_orders cfg dir qty ++
           (try_revert (filled_leg_venue resP) (filled_leg_symbol cfg resP)
             (oppositeSide (filled_leg_side dir resP)) qty 3 rev).2)
      else
        ({ s with
           last_error_time := now
           quarantine_mode := true
           quarantine_reason := "Partial fill / Auto-revert off" },
         entry_orders cfg dir qty) := by
  cases resP <;> cases resS <;> first
    | exact absurd rfl hpart
    | (simp only [execute_dual_leg_entry, hsim, filled_leg_venue,
        filled_leg_symbol, filled_leg_side, filled_leg_reason,
        Bool.false_and, Bool.true_and, Bool.and_false, Bool.and_true,
        Bool.not_false, Bool.not_true, Bool.false_eq_true, if_false,
        if_true, Bool.true_eq_false]
       split_ifs <;> rfl)

/-- C2. A partial entry fill (exactly one leg succeeded) never commits
position state. With auto-revert disabled it quarantines with the recorded
reason and every later cycle is inert until the flag is cleared. With
auto-revert enabled, the filled leg is closed by opposite-side market orders
of the same quantity, at most 3 attempts, stopping at the first success;
success leaves the quarantine state as it was (a failed entry), failure
after the attempts quarantines with a recorded reason. -/
theorem partial_entry_revert_or_quarantine (cfg : TwoCfg) (s : TwoState)
    (now qty : ℚ) (dir : TwoDir) (resP resS : Bool) (rev : List Bool)
    (hsim : cfg.is_simulation = false) (hpart : resP ≠ resS) :
    (execute_dual_leg_entry cfg s now dir qty resP resS rev).1.current_position =
      s.current_position ∧
    (execute_dual_leg_entry cfg s now dir qty resP resS rev).1.current_position_size =
      s.current_position_size ∧
    (execute_dual_leg_entry cfg s now dir qty resP resS rev).1.entry_time =
      s.entry_time ∧
    (cfg.auto_revert = false →
      (execute_dual_leg_entry cfg s now dir qty resP resS rev).1.quarantine_mode = true ∧
      (execute_dual_leg_entry cfg s now dir qty resP resS rev).1.quarantine_reason =
        "Partial fill / Auto-revert off" ∧
      (execute_dual_leg_entry cfg s now dir qty resP resS rev).2 =
        entry_orders cfg dir qty ∧
      (∀ inp : TwoInput,
        (check_opportunity cfg
          (execute_dual_leg_entry cfg s now dir qty resP resS rev).1 inp).state =
          (execute_dual_leg_entry cfg s now dir qty resP resS rev).1 ∧
        (check_opportunity cfg
          (execute_dual_leg_entry cfg s now dir qty resP resS rev).1 inp).orders = [])) ∧
    (cfg.auto_revert = true →
      (execute_dual_leg_entry cfg s now dir qty resP resS rev).2 =
        entry_orders cfg dir qty ++
          (try_revert (filled_leg_venue resP) (filled_leg_symbol cfg resP)
            (oppositeSide (filled_leg_side dir resP)) qty 3 rev).2 ∧
      (try_revert (filled_leg_venue resP) (filled_leg_symbol cfg resP)
        (oppositeSide (filled_leg_side dir resP)) qty 3 rev).2.length ≤ 3 ∧
      (∀ o ∈ (try_revert (filled_leg_venue resP) (filled_leg_symbol cfg resP)
          (oppositeSide (filled_leg_side dir resP)) qty 3 rev).2,
        o = ⟨filled_leg_venue resP, filled_leg_symbol cfg resP,
          oppositeSide (filled_leg_side dir resP), qty⟩) ∧
      ((rev.take 3).any id = true →
        (execute_dual_leg_entry cfg s now dir qty resP resS rev).1.quarantine_mode =
          s.quarantine_mode ∧
        (execute_dual_leg_entry cfg s now dir qty resP resS rev).1.quarantine_reason =
          s.quarantine_reason) ∧
      ((rev.take 3).any id = false →
        (execute_dual_leg_entry cfg s now dir qty resP resS rev).1.quarantine_mode = true ∧
        (execute_dual_leg_entry cfg s now dir qty resP resS rev).1.quarantine_reason ≠ "")) := by
  have hspec := try_revert_spec (filled_leg_venue resP) (filled_leg_symbol cfg resP)
    (oppositeSide (filled_leg_side dir resP)) qty 3 rev
  have heq := exec_entry_partial_eq cfg s now qty dir rev resP resS hsim hpart
  rw [heq]
  split_ifs with har hr
  · -- auto-revert on, revert succeeded
    refine ⟨rfl, rfl, rfl, fun h => absurd (h ▸ har) (by simp),
      fun _ => ⟨rfl, hspec.2.1, hspec.2.2, fun _ => ⟨rfl, rfl⟩, fun hf => ?_⟩⟩
    rw [hspec.1, hf] at hr
    exact absurd hr (by simp)
  · -- auto-revert on, revert failed
    refine ⟨rfl, rfl, rfl, fun h => absurd (h ▸ har) (by simp),
      fun _ => ⟨rfl, hspec.2.1, hspec.2.2, fun hs => ?_, fun _ => ⟨rfl, ?_⟩⟩⟩
    · rw [hspec.1, hs] at hr
      exact absurd rfl hr
    · cases resP <;> simp [filled_leg_reason]
  · -- auto-revert off
    refine ⟨rfl, rfl, rfl,
      fun _ => ⟨rfl, rfl, rfl, fun inp => cycle_quarantine_gate cfg _ inp rfl⟩,
      fun h => absurd h har⟩

/-- C2 witness: a concrete live partial fill (primary filled, secondary
failed) with auto-revert disabled quarantines with the recorded reason,
commits nothing, and the next cycle is inert. -/
theorem partial_entry_revert_or_quarantine_witness :
    (execute_dual_leg_entry cfgW stFlat 50 TwoDir.shortPrimaryLongSecondary 2
      true false []).1.current_position = stFlat.current_position ∧
    (execute_dual_leg_entry cfgW stFlat 50 TwoDir.shortPrimaryLongSecondary 2
      true false []).1.current_position_size = stFlat.current_position_size ∧
    (execute_dual_leg_entry cfgW stFlat 50 TwoDir.shortPrimaryLongSecondary 2
      true false []).1.quarantine_mode = true ∧
    (execute_dual_leg_entry cfgW stFlat 50 TwoDir.shortPrimaryLongSecondary 2
      true false []).1.quarantine_reason = "Partial fill / Auto-revert off" ∧
    (execute_dual_leg_entry cfgW stFlat 50 TwoDir.shortPrimaryLongSecondary 2
      true false []).2 = entry_orders cfgW TwoDir.shortPrimaryLongSecondary 2 ∧
    (check_opportunity cfgW
      (execute_dual_leg_entry cfgW stFlat 50 TwoDir.shortPrimaryLongSecondary 2
        true false []).1 inpW).orders = [] := by
  have h := partial_entry_revert_or_quarantine cfgW stFlat 50 2
    TwoDir.shortPrimaryLongSecondary true false [] rfl (by simp)
  have hd := h.2.2.2.1 rfl
  exact ⟨h.1, h.2.1, hd.1, hd.2.1, hd.2.2.1, (hd.2.2.2 inpW).2⟩

/-! ## C3: successful entries add the requested quantity -/

/-- A reconciliation result with no tracked pair has size zero. -/
lemma sync_flat_size_zero (cfg : DynCfg)
    (results : List (String × Except Unit (List PosEntry))) :
    (sync_state_from_exchanges cfg results).current_pair = none →
    (sync_state_from_exchanges cfg results).current_position_size = 0 := by
  unfold sync_state_from_exchanges
  rcases h1 : (scan_results cfg results).bestShortEx with _ | vs <;>
    rcases h2 : (scan_results cfg results).bestLongEx with _ | vl <;> simp [h1, h2]

/-- execute_exit preserves the flat-implies-zero-size invariant. -/
lemma dyn_exit_preserves_flat (cfg : DynCfg) (s : DynState) (inp : DynInput)
    (h : s.current_pair = none → s.current_position_size = 0) :
    (dyn_execute_exit cfg s inp).1.current_pair = none →
    (dyn_execute_exit cfg s inp).1.current_position_size = 0 := by
  unfold dyn_execute_exit
  rcases hp : s.current_pair with _ | ⟨sEx, lEx⟩
  · simpa [hp] using h
  · split_ifs <;> simp [hp]

/-- execute_entry preserves the flat-implies-zero-size invariant. -/
lemma dyn_entry_preserves_flat (cfg : DynCfg) (s : DynState) (inp : DynInput)
    (pair : String × String) (price : ℚ)
    (h : s.current_pair = none → s.current_position_size = 0) :
    (dyn_execute_entry cfg s inp pair price).1.current_pair = none →
    (dyn_execute_entry cfg s inp pair price).1.current_position_size = 0 := by
  unfold dyn_execute_entry
  by_cases hq : dyn_entry_qty cfg.order_size_usd price ≤ 0
  · intro hp
    simp only [hq, if_true] at hp ⊢
    exact h hp
  · intro hp
    simp [hq] at hp ⊢
    split_ifs at hp ⊢ <;> simp_all

/-- The exit-monitoring block preserves the flat-implies-zero-size invariant. -/
lemma dyn_monitor_exit_preserves_flat (cfg : DynCfg) (s : DynState)
    (inp : DynInput) (exApr : List (String × ℚ)) (sEx lEx : String)
    (h : s.current_pair = none → s.current_position_size = 0) :
    (dyn_monitor_exit cfg s inp exApr sEx lEx).1.current_pair = none →
    (dyn_monitor_exit cfg s inp exApr sEx lEx).1.current_position_size = 0 := by
  unfold dyn_monitor_exit
  dsimp only
  split_ifs
  · exact dyn_exit_preserves_flat cfg s inp h
  · exact h

/-- The entry block preserves the flat-implies-zero-size invariant. -/
lemma dyn_try_enter_preserves_flat (cfg : DynCfg) (s : DynState)
    (inp : DynInput) (best : ℚ × Option (String × String)) (price : ℚ)
    (h : s.current_pair = none → s.current_position_size = 0) :
    (dyn_try_enter cfg s inp best price).1.current_pair = none →
    (dyn_try_enter cfg s inp best price).1.current_position_size = 0 := by
  unfold dyn_try_enter
  rcases best with ⟨bs, bp⟩
  rcases bp with _ | pair <;> split_ifs <;>
    first
    | exact h
    | exact dyn_entry_preserves_flat cfg s inp _ _ h

/-- A decision cycle preserves the flat-implies-zero-size invariant. -/
lemma dyn_cycle_preserves_flat (cfg : DynCfg) (s : DynState) (inp : DynInput)
    (h : s.current_pair = none → s.current_position_size = 0) :
    (dyn_check_opportunity cfg s inp).1.current_pair = none →
    (dyn_check_opportunity cfg s inp).1.current_position_size = 0 := by
  unfold dyn_check_opportunity
  by_cases he : (dyn_ex_rates inp.rates).isEmpty = true
  · simp only [he, if_true]
    exact h
  · simp only [he, Bool.false_eq_true, if_false]
    rcases hpr : inp.price with e | price
    · exact h
    · rcases hcp : s.current_pair with _ | ⟨sEx, lEx⟩
      · exact dyn_try_enter_preserves_flat cfg s inp _ _ h
      · exact dyn_monitor_exit_preserves_flat cfg s inp _ _ _ h

/-- Every reachable N-venue state satisfies the data-model invariant: no
tracked pair means zero tracked size. -/
lemma dyn_reachable_flat (cfg : DynCfg) (s : DynState) (h : DynReachable cfg s) :
    s.current_pair = none → s.current_position_size = 0 := by
  induction h with
  | init => simp
  | sync s results hs ih => exact sync_flat_size_zero cfg results
  | cycle s inp hs ih => exact dyn_cycle_preserves_flat cfg s inp ih

/-- C3. When every leg of an entry succeeds, the tracked size grows by
exactly the requested quantity and the tracked direction becomes the
requested one. For the two-venue strategy the source adds the quantity
(size += qty). The N-venue execute_entry assigns size := qty, which equals
previous + qty because entries are only reachable from flat states, whose
size is 0 by the reachability invariant. -/
theorem successful_entry_adds_quantity (cfg : TwoCfg) (s : TwoState)
    (now qty : ℚ) (dir : TwoDir) (rev : List Bool) (dcfg : DynCfg)
    (ds : DynState) (dinp : DynInput) (pair : String × String) (price : ℚ)
    (hsim : cfg.is_simulation = false)
    (hreach : DynReachable dcfg ds) (hflat : ds.current_pair = none)
    (hdsim : dcfg.is_simulation = false)
    (hqty : 0 < dyn_entry_qty dcfg.order_size_usd price)
    (hok1 : dinp.entryShortOk = true) (hok2 : dinp.entryLongOk = true) :
    (execute_dual_leg_entry cfg s now dir qty true true rev).1.current_position_size =
      s.current_position_size + qty ∧
    (execute_dual_leg_entry cfg s now dir qty true true rev).1.current_position =
      some dir ∧
    (dyn_execute_entry dcfg ds dinp pair price).1.current_position_size =
      ds.current_position_size + dyn_entry_qty dcfg.order_size_usd price ∧
    (dyn_execute_entry dcfg ds dinp pair price).1.current_pair = some pair := by
  have hzero := dyn_reachable_flat dcfg ds hreach hflat
  refine ⟨?_, ?_, ?_, ?_⟩
  · simp [execute_dual_leg_entry, hsim]
  · simp [execute_dual_leg_entry, hsim]
  · unfold dyn_execute_entry
    rw [if_neg (not_le.mpr hqty), hdsim]
    simp [hok1, hok2, hzero]
  · unfold dyn_execute_entry
    rw [if_neg (not_le.mpr hqty), hdsim]
    simp [hok1, hok2]

/-- A concrete N-venue cycle input used by witness statements. -/
def dinpW : DynInput :=
  ⟨[("lighter", .ok 0)], 0, .ok 100, true, true, true, true⟩

/-- C3 witness: a concrete live dual success adds the quantity on the
two-venue strategy, and a concrete live N-venue entry from the reachable
initial flat state adds its quantity. -/
theorem successful_entry_adds_quantity_witness :
    (execute_dual_leg_entry cfgW stFlat 50 TwoDir.shortPrimaryLongSecondary 2
      true true []).1.current_position_size = stFlat.current_position_size + 2 ∧
    (execute_dual_leg_entry cfgW stFlat 50 TwoDir.shortPrimaryLongSecondary 2
      true true []).1.current_position = some TwoDir.shortPrimaryLongSecondary ∧
    (dyn_execute_entry dcfgW ⟨none, 0, false⟩ dinpW ("lighter", "backpack")
      100).1.current_position_size = (0 : ℚ) + dyn_entry_qty dcfgW.order_size_usd 100 ∧
    (dyn_execute_entry dcfgW ⟨none, 0, false⟩ dinpW ("lighter", "backpack")
      100).1.current_pair = some ("lighter", "backpack") :=
  successful_entry_adds_quantity cfgW stFlat 50 2 TwoDir.shortPrimaryLongSecondary []
    dcfgW ⟨none, 0, false⟩ dinpW ("lighter", "backpack") 100 rfl
    DynReachable.init rfl rfl (by norm_num [dyn_entry_qty, dcfgW]) rfl rfl

/-! ## C7: execution-window gating -/

/-- Outside the execution window the two-venue cycle submits no order and
leaves the execution timestamp, the entry time and the quarantine flag
untouched: every path returns before the exit and entry blocks. -/
lemma two_cycle_window_gate (cfg : TwoCfg) (s : TwoState) (inp : TwoInput)
    (hwin : ¬ two_in_window cfg inp.minute) :
    (check_opportunity cfg s inp).orders = [] ∧
    (check_opportunity cfg s inp).state.last_execution_time = s.last_execution_time ∧
    (check_opportunity cfg s inp).state.entry_time = s.entry_time ∧
    (check_opportunity cfg s inp).state.quarantine_mode = s.quarantine_mode := by
  unfold check_opportunity
  split_ifs with hcool hq
  · simp
  · simp
  · rcases hticker : inp.ticker with isRL | price
    · simp [handle_error, apply_ite]
    · rcases hverify : verify_positions cfg s inp.posP inp.posS inp.pending with e | vr
      · simp
      · simp [apply_reconcile]

/-- A flat N-venue strategy takes no action outside its execution window:
the only order-producing path from a flat state is the entry block, and it
is window-gated. -/
lemma dyn_entry_window_gate (dcfg : DynCfg) (ds : DynState) (dinp : DynInput)
    (hflat : ds.current_pair = none)
    (hdwin : dcfg.execution_window_minutes < dyn_minutes_from_hour dinp.minute) :
    dyn_check_opportunity dcfg ds dinp = (ds, []) := by
  unfold dyn_check_opportunity
  by_cases he : (dyn_ex_rates dinp.rates).isEmpty = true
  · simp [he]
  · simp only [he, Bool.false_eq_true, if_false]
    rcases hpr : dinp.price with e | price
    · rfl
    · simp only [hflat]
      unfold dyn_try_enter
      split_ifs with h1 h2 h3
      · rfl
      · exact absurd h3 (not_le.mpr hdwin)
      · rfl
      · rfl

/-- C7 (amended). Outside the configured execution window the two-venue
strategy executes neither entry nor exit (no order, no execution timestamp
or entry-time or quarantine change, whatever the spread), and the N-venue
strategy executes no entry from a flat state. The N-venue exit path,
however, is not window-gated (see the counterexample). -/
theorem execution_window_gating (cfg : TwoCfg) (s : TwoState) (inp : TwoInput)
    (dcfg : DynCfg) (ds : DynState) (dinp : DynInput)
    (hwin : ¬ two_in_window cfg inp.minute)
    (hflat : ds.current_pair = none)
    (hdwin : dcfg.execution_window_minutes < dyn_minutes_from_hour dinp.minute) :
    (check_opportunity cfg s inp).orders = [] ∧
    (check_opportunity cfg s inp).state.last_execution_time = s.last_execution_time ∧
    (check_opportunity cfg s inp).state.entry_time = s.entry_time ∧
    (check_opportunity cfg s inp).state.quarantine_mode = s.quarantine_mode ∧
    dyn_check_opportunity dcfg ds dinp = (ds, []) := by
  have h := two_cycle_window_gate cfg s inp hwin
  exact ⟨h.1, h.2.1, h.2.2.1, h.2.2.2, dyn_entry_window_gate dcfg ds dinp hflat hdwin⟩

/-- C7 counterexample. At minute 30 — outside the 5 minute window — an
N-venue strategy holding a pair whose spread has reverted executes a full
exit: orders are submitted and the position is cleared, so the claim that no
exit executes outside the window fails on the N-venue strategy. -/
theorem execution_window_gating_counterexample :
    dcfgW.execution_window_minutes < dyn_minutes_from_hour 30 ∧
    dyn_check_opportunity dcfgW ⟨some ("lighter", "backpack"), 2, false⟩
        ⟨[("lighter", .ok (1/100000)), ("backpack", .ok (2/100000))], 30, .ok 100,
          true, true, true, true⟩ =
      (⟨none, 0, false⟩,
       [⟨"lighter", "SOL-USDC", Side.buy, 2⟩,
        ⟨"backpack", "SOL-USDC", Side.sell, 2⟩]) := by
  constructor
  · norm_num [dyn_minutes_from_hour, dcfgW]
  · have hbl : (("backpack" : String) == "lighter") = false := by decide
    have hbb : (("backpack" : String) == "backpack") = true := by decide
    have hll : (("lighter" : String) == "lighter") = true := by decide
    norm_num [dyn_check_opportunity, dyn_ex_rates, dyn_monitor_exit,
      dyn_execute_exit, dyn_best_pair, List.lookup, dcfgW, exSymW,
      hbl, hbb, hll]
    exact fun h => absurd h (by simp)

/-- C7 witness: at minute 30 a concrete two-venue cycle submits no order and
a concrete flat N-venue cycle is inert. -/
theorem execution_window_gating_witness :
    (check_opportunity cfgW stFlat
      ⟨100, 30, .ok 0, .ok 0, .ok 100, .ok [], .ok [], .ok 0, 0, 0,
        true, true, [], true, true⟩).orders = [] ∧
    (check_opportunity cfgW stFlat
      ⟨100, 30, .ok 0, .ok 0, .ok 100, .ok [], .ok [], .ok 0, 0, 0,
        true, true, [], true, true⟩).state.last_execution_time =
      stFlat.last_execution_time ∧
    (check_opportunity cfgW stFlat
      ⟨100, 30, .ok 0, .ok 0, .ok 100, .ok [], .ok [], .ok 0, 0, 0,
        true, true, [], true, true⟩).state.entry_time = stFlat.entry_time ∧
    (check_opportunity cfgW stFlat
      ⟨100, 30, .ok 0, .ok 0, .ok 100, .ok [], .ok [], .ok 0, 0, 0,
        true, true, [], true, true⟩).state.quarantine_mode =
      stFlat.quarantine_mode ∧
    dyn_check_opportunity dcfgW ⟨none, 0, false⟩
        ⟨[("lighter", .ok 0)], 30, .ok 100, true, true, true, true⟩ =
      (⟨none, 0, false⟩, []) :=
  execution_window_gating cfgW stFlat
    ⟨100, 30, .ok 0, .ok 0, .ok 100, .ok [], .ok [], .ok 0, 0, 0,
      true, true, [], true, true⟩
    dcfgW ⟨none, 0, false⟩ ⟨[("lighter", .ok 0)], 30, .ok 100, true, true, true, true⟩
    (by norm_num [two_in_window, cfgW]) rfl
    (by norm_num [dyn_minutes_from_hour, dcfgW])

/-! ## C9: funding-rate fetch failures -/

/-- C9 (amended). The N-venue evaluator excludes venues whose rate fetch
failed: every rate it considers comes from a successful fetch, and when
every fetch failed the cycle aborts with the state unchanged and no order.
The two-venue fetch_all_funding_rates, however, does not exclude a failed
leg: it substitutes the default rate 0.0 and the cycle continues (see the
counterexample, where a failed primary fetch triggers an entry). -/
theorem rate_fetch_failure_handling (rates : List (String × Except Unit ℚ))
    (v : String) (r : ℚ) (dcfg : DynCfg) (ds : DynState) (dinp : DynInput)
    (rp rs : Except Unit ℚ)
    (hmem : (v, r) ∈ dyn_ex_rates rates)
    (hall : ∀ e ∈ dinp.rates, e.2 = Except.error ()) :
    (v, Except.ok r) ∈ rates ∧
    dyn_check_opportunity dcfg ds dinp = (ds, []) ∧
    (fetch_all_funding_rates (Except.error ()) rs).1 = 0 ∧
    (fetch_all_funding_rates rp (Except.error ())).2 = 0 := by
  refine ⟨?_, ?_, rfl, by cases rp <;> rfl⟩
  · unfold dyn_ex_rates at hmem
    rw [List.mem_filterMap] at hmem
    obtain ⟨a, ha, hfa⟩ := hmem
    rcases a with ⟨av, ar⟩
    rcases ar with e | x
    · exact absurd hfa (by simp)
    · simp only [Option.some_inj] at hfa
      obtain ⟨h1, h2⟩ := Prod.mk.injEq .. ▸ hfa

      subst h1
      subst h2
      exact ha
  · have hnil : dyn_ex_rates dinp.rates = [] := by
      unfold dyn_ex_rates
      rw [List.filterMap_eq_nil_iff]
      intro a ha
      rcases a with ⟨av, ar⟩
      have := hall (av, ar) ha
      simp only at this
      rw [this]
    unfold dyn_check_opportunity
    simp [hnil]

/-- The configuration of the C9 counterexample: fixed one-contract sizing,
0.5 APR entry threshold. -/
def cfgRate : TwoCfg :=
  ⟨"SOL-USDC", "SOL-USDC", 1/2, 1, none, 10, none, false, false, 5⟩

/-- The input of the C9 counterexample: the primary funding-rate fetch
fails, the secondary reports 0.0001 per hour, everything else is healthy. -/
def inpRate : TwoInput :=
  ⟨100, 0, .error (), .ok (1/10000), .ok 100, .ok [], .ok [], .ok 0, 0, 0,
    true, true, [], true, true⟩

/-- C9 counterexample. With the primary rate fetch failed, the two-venue
cycle does not exclude the venue or abort: it treats the primary rate as
0.0, computes a spread of -87.6 percent APR against the secondary's
fabricated counterparty, and executes an entry — orders are submitted and a
position is committed. -/
theorem rate_fetch_failure_counterexample :
    inpRate.rateP = Except.error () ∧
    (check_opportunity cfgRate stFlat inpRate).orders =
      [⟨"primary", "SOL-USDC", Side.buy, 1⟩,
       ⟨"secondary", "SOL-USDC", Side.sell, 1⟩] ∧
    (check_opportunity cfgRate stFlat inpRate).state.current_position =
      some TwoDir.longPrimaryShortSecondary := by
  refine ⟨rfl, ?_⟩
  have : check_opportunity cfgRate stFlat inpRate =
      ⟨⟨some TwoDir.longPrimaryShortSecondary, 1, false, "", 0, 10, 0, some 100, 0, 0⟩,
       [⟨"primary", "SOL-USDC", Side.buy, 1⟩,
        ⟨"secondary", "SOL-USDC", Side.sell, 1⟩], ["Scanning"]⟩ := by
    norm_num [check_opportunity, fetch_all_funding_rates, verify_positions,
      apply_reconcile, classify_direction, reconciled_size, two_entry_block,
      entry_tail, truthyOpt, two_in_window, execute_dual_leg_entry,
      entry_orders, entry_sides, eps, cfgRate, inpRate, stFlat]
  rw [this]
  exact ⟨rfl, rfl⟩

/-- C9 witness: a concrete successful fetch list membership, a concrete
all-failed N-venue cycle abort, and the two defaulted legs. -/
theorem rate_fetch_failure_handling_witness :
    ("backpack", Except.ok (1/10000 : ℚ)) ∈
      ([("lighter", .error ()), ("backpack", .ok (1/10000))] :
        List (String × Except Unit ℚ)) ∧
    dyn_check_opportunity dcfgW ⟨none, 0, false⟩
        ⟨[("lighter", .error ()), ("backpack", .error ())], 0, .ok 100,
          true, true, true, true⟩ = (⟨none, 0, false⟩, []) ∧
    (fetch_all_funding_rates (Except.error ()) (Except.ok (1/10000))).1 = 0 ∧
    (fetch_all_funding_rates (Except.ok (1/10000)) (Except.error ())).2 = 0 :=
  rate_fetch_failure_handling
    [("lighter", .error ()), ("backpack", .ok (1/10000))] "backpack" (1/10000)
    dcfgW ⟨none, 0, false⟩
    ⟨[("lighter", .error ()), ("backpack", .error ())], 0, .ok 100,
      true, true, true, true⟩
    (.ok (1/10000)) (.error ())
    (by simp [dyn_ex_rates]) (by intro e he; fin_cases he <;> rfl)

/-! ## C8: order sizing truncation -/

/-- Python round of an integer is that integer. -/
lemma roundHE_intCast (n : ℤ) : roundHE (n : ℚ) = n := by
  unfold roundHE
  rw [Int.floor_intCast]
  norm_num

/-- The fuelled base-10 logarithm is exact on powers of ten with enough fuel. -/
lemma log10floor_pow (m : ℕ) : ∀ fuel : ℕ, 10 ^ m ≤ fuel →
    log10floor fuel (10 ^ m) = m := by
  induction m with
  | zero =>
    intro fuel hf
    cases fuel with
    | zero => omega
    | succ f => simp [log10floor]
  | succ m ih =>
    intro fuel hf
    have h10 : (10 : ℕ) ≤ 10 ^ (m + 1) := by
      calc (10 : ℕ) = 10 ^ 1 := by norm_num
      _ ≤ 10 ^ (m + 1) := Nat.pow_le_pow_right (by norm_num) (by omega)
    cases fuel with
    | zero => omega
    | succ f =>
      have hdiv : 10 ^ (m + 1) / 10 = 10 ^ m := by
        rw [pow_succ]
        exact Nat.mul_div_cancel _ (by norm_num)
      have hle : 10 ^ m ≤ f := by
        have h1 : 1 ≤ 10 ^ m := Nat.one_le_pow _ _ (by norm_num)
        have : 10 ^ m + 1 ≤ 10 ^ (m + 1) := by
          rw [pow_succ]
          omega
        omega
      rw [log10floor, if_neg (by omega), hdiv, ih f hle]
      omega

/-- The derived precision of a step of the form 1 / 10 ^ k is k. -/
lemma precOf_inv_pow (k : ℕ) : precOf ((1 : ℚ) / 10 ^ k) = k := by
  unfold precOf
  cases k with
  | zero => norm_num
  | succ k =>
    rw [if_neg, one_div_one_div]
    · have hcast : ((10 : ℚ) ^ (k + 1)) = (((10 : ℤ) ^ (k + 1) : ℤ) : ℚ) := by
        push_cast
        ring
      rw [hcast, Int.floor_intCast]
      have htn : ((10 : ℤ) ^ (k + 1)).toNat = (10 : ℕ) ^ (k + 1) := by
        rw [show ((10 : ℤ) ^ (k + 1)) = (((10 : ℕ) ^ (k + 1) : ℕ) : ℤ) by push_cast; ring]
        exact Int.toNat_natCast _
      rw [htn]
      exact log10floor_pow (k + 1) _ le_rfl
    · rw [not_le]
      rw [div_lt_one (by positivity)]
      calc (1 : ℚ) < 10 ^ 1 := by norm_num
      _ ≤ 10 ^ (k + 1) := by
        apply pow_le_pow_right₀ (by norm_num)
        omega

/-- The derived precision of a step of the form 10 ^ k is 0. -/
lemma precOf_pow (k : ℕ) : precOf ((10 : ℚ) ^ k) = 0 := by
  unfold precOf
  rw [if_pos (one_le_pow₀ (by norm_num))]

/-- On a power-of-ten step the final decimal rounding of calc_size is the
identity, so calc_size is exactly the floor-truncated multiple of the step. -/
lemma calc_size_pow_ten (step raw : ℚ)
    (hstep : (∃ k : ℕ, step = 1 / 10 ^ k) ∨ (∃ k : ℕ, step = (10 : ℚ) ^ k)) :
    calc_size step raw = (pyInt (raw / step) : ℚ) * step := by
  unfold calc_size roundPrec
  rcases hstep with ⟨k, hk⟩ | ⟨k, hk⟩
  · subst hk
    rw [precOf_inv_pow]
    have hx : (pyInt (raw / (1 / 10 ^ k)) : ℚ) * (1 / 10 ^ k) * 10 ^ k =
        ((pyInt (raw / (1 / 10 ^ k)) : ℤ) : ℚ) := by
      field_simp
    rw [hx, roundHE_intCast]
    field_simp
  · subst hk
    rw [precOf_pow]
    have hx : (pyInt (raw / 10 ^ k) : ℚ) * (10 : ℚ) ^ k * 10 ^ 0 =
        (((pyInt (raw / 10 ^ k) * 10 ^ k : ℤ)) : ℚ) := by
      push_cast
      ring
    rw [hx, roundHE_intCast]
    push_cast
    ring

/-- C8 (amended). Two-venue dynamic sizing truncates and never rounds up:
on the power-of-ten steps the venues report, the result is an exact integer
multiple of the chosen step — the larger of the venue steps — and at most
the raw quantity; a nonpositive quantity aborts the entry tail with no
order. The N-venue entry path, however, applies no truncation at all: its
quantity is the raw quotient notional over price, only aborting when it is
nonpositive. -/
theorem order_sizing_truncation (step raw lStep bStep : ℚ) (cfg : TwoCfg)
    (s1 : TwoState) (inp : TwoInput) (price spreadApr : ℚ)
    (statuses : List String) (usd priceA priceB : ℚ) (dcfg : DynCfg)
    (ds : DynState) (dinp : DynInput) (pair : String × String)
    (hstep : (∃ k : ℕ, step = 1 / 10 ^ k) ∨ (∃ k : ℕ, step = (10 : ℚ) ^ k)) :
    (∃ m : ℤ, calc_size step raw = (m : ℚ) * step) ∧
    (0 ≤ raw → calc_size step raw ≤ raw) ∧
    (0 < lStep ∨ 0 < bStep → common_step lStep bStep = max lStep bStep) ∧
    (∀ qty : ℚ, qty ≤ 0 →
      entry_tail cfg s1 inp price spreadApr statuses qty = ⟨s1, [], statuses⟩) ∧
    (0 < priceA → dyn_entry_qty usd priceA = usd / priceA) ∧
    (dyn_entry_qty dcfg.order_size_usd priceB ≤ 0 →
      dyn_execute_entry dcfg ds dinp pair priceB = (ds, [])) := by
  have hpos : 0 < step := by
    rcases hstep with ⟨k, hk⟩ | ⟨k, hk⟩ <;> subst hk <;> positivity
  refine ⟨⟨pyInt (raw / step), calc_size_pow_ten step raw hstep⟩, fun hraw => ?_,
    fun h => ?_, fun qty hqty => ?_, fun hp => ?_, fun hq => ?_⟩
  · rw [calc_size_pow_ten step raw hstep]
    have hq : 0 ≤ raw / step := div_nonneg hraw hpos.le
    have hpy : pyInt (raw / step) = ⌊raw / step⌋ := by
      unfold pyInt
      rw [if_neg (not_lt.mpr hq)]
    rw [hpy]
    calc (⌊raw / step⌋ : ℚ) * step ≤ (raw / step) * step :=
      mul_le_mul_of_nonneg_right (Int.floor_le _) hpos.le
    _ = raw := div_mul_cancel₀ raw hpos.ne.symm
  · unfold common_step
    rw [if_pos h]
  · unfold entry_tail
    rw [if_pos hqty]
  · unfold dyn_entry_qty
    rw [if_pos hp]
  · unfold dyn_execute_entry
    rw [if_pos hq]

/-- C8 counterexample. With venue steps 0.01 and 0.001 (coarsest 0.01),
notional 100 and price 3, the N-venue entry quantity is the untruncated
100/3, which is strictly above its 0.01-truncation 33.33 and not a multiple
of the step: the claim that the truncation applies to the N-venue entry path
fails. -/
theorem order_sizing_truncation_counterexample :
    common_step (1/100) (1/1000) = 1/100 ∧
    dyn_entry_qty 100 3 = 100 / 3 ∧
    calc_size (1/100) (dyn_entry_qty 100 3) = 3333/100 ∧
    dyn_entry_qty 100 3 ≠ calc_size (1/100) (dyn_entry_qty 100 3) := by
  have h1 : common_step (1/100) (1/1000) = 1/100 := by
    norm_num [common_step]
  have h2 : dyn_entry_qty 100 3 = 100 / 3 := by
    norm_num [dyn_entry_qty]
  have h3 : calc_size (1/100) ((100 : ℚ) / 3) = 3333/100 := by
    have hc := calc_size_pow_ten (1/100) (100/3) (Or.inl ⟨2, by norm_num⟩)
    rw [hc]
    have : pyInt ((100 : ℚ) / 3 / (1 / 100)) = 3333 := by
      unfold pyInt
      rw [if_neg (by norm_num)]
      rw [show ((100 : ℚ) / 3 / (1 / 100)) = 10000/3 by norm_num]
      rw [show (3333 : ℤ) = ⌊(3333 + 1/3 : ℚ)⌋ by norm_num [Int.floor_eq_iff]]
      norm_num
    rw [this]
    norm_num
  refine ⟨h1, h2, ?_, ?_⟩
  · rw [h2]
    exact h3
  · rw [h2, h3]
    norm_num

/-- C8 witness: the truncated quantity 33.33 is a multiple of the step 0.01
and at most the raw 100/3; a nonpositive quantity aborts the entry tail; the
N-venue quantity at price 3 is exactly 100/3; a nonpositive N-venue quantity
aborts the entry. -/
theorem order_sizing_truncation_witness :
    (∃ m : ℤ, calc_size (1/100) (100/3) = (m : ℚ) * (1/100)) ∧
    calc_size (1/100) (100/3) ≤ (100 : ℚ)/3 ∧
    common_step (1/100) (1/1000) = max (1/100) (1/1000) ∧
    entry_tail cfgW stFlat inpW 100 0 ["Scanning"] (-1) =
      ⟨stFlat, [], ["Scanning"]⟩ ∧
    dyn_entry_qty 100 3 = 100 / 3 ∧
    dyn_execute_entry dcfgW ⟨none, 0, false⟩ dinpW ("lighter", "backpack") (-1) =
      (⟨none, 0, false⟩, []) := by
  have hA := order_sizing_truncation (1/100) (100/3) (1/100) (1/1000) cfgW stFlat
    inpW 100 0 ["Scanning"] 100 3 (-1) dcfgW ⟨none, 0, false⟩ dinpW
    ("lighter", "backpack") (Or.inl ⟨2, by norm_num⟩)
  exact ⟨hA.1, hA.2.1 (by norm_num), hA.2.2.1 (by norm_num),
    hA.2.2.2.1 (-1) (by norm_num), hA.2.2.2.2.1 (by norm_num),
    hA.2.2.2.2.2 (by norm_num [dyn_entry_qty, dcfgW])⟩

/-! ## C5: N-venue reconciliation classification -/

/-- The flattened (venue, position) pairs of a successful reconciliation, in
scan order. -/
def flatten (results : List (String × List PosEntry)) : List (String × PosEntry) :=
  results.flatMap fun r => r.2.map fun p => (r.1, p)

/-- The scan fold over a flattened (venue, position) list. -/
def flat_fold (cfg : DynCfg) (L : List (String × PosEntry)) (a : BestLegs) :
    BestLegs :=
  L.foldl (fun acc vp => scan_pos (cfg.exSym vp.1) acc vp.1 vp.2) a

/-- Specification reading of the claim: the magnitudes of the positions
matching their venue symbol that are significantly short. -/
def shortMags (cfg : DynCfg) (L : List (String × PosEntry)) : List ℚ :=
  L.filterMap fun vp =>
    if vp.2.symbol = cfg.exSym vp.1 ∧ vp.2.size < -eps then some |vp.2.size| else none

/-- Specification reading of the claim: the sizes of the positions matching
their venue symbol that are significantly long. -/
def longMags (cfg : DynCfg) (L : List (String × PosEntry)) : List ℚ :=
  L.filterMap fun vp =>
    if vp.2.symbol = cfg.exSym vp.1 ∧ eps < vp.2.size then some vp.2.size else none

/-- The maximum of a list of rationals, at least 0. -/
def qmax0 (l : List ℚ) : ℚ :=
  l.foldr max 0

lemma qmax0_nil : qmax0 [] = 0 := rfl

lemma qmax0_cons (x : ℚ) (l : List ℚ) : qmax0 (x :: l) = max x (qmax0 l) := rfl

lemma qmax0_nonneg (l : List ℚ) : 0 ≤ qmax0 l := by
  induction l with
  | nil => simp [qmax0]
  | cons x l ih => rw [qmax0_cons]; exact le_trans ih (le_max_right x _)

/-- The venue-structured scan equals the flat scan over the flattened list. -/
lemma scan_results_eq_flat (cfg : DynCfg) (results : List (String × List PosEntry)) :
    scan_results cfg (results.map fun r => (r.1, Except.ok r.2)) =
      flat_fold cfg (flatten results) ⟨none, 0, none, 0⟩ := by
  unfold scan_results flat_fold flatten
  generalize (⟨none, 0, none, 0⟩ : BestLegs) = a
  induction results generalizing a with
  | nil => rfl
  | cons r rest ih =>
    rcases r with ⟨name, ps⟩
    simp only [List.map_cons, List.foldl_cons, List.flatMap_cons, List.foldl_append,
      scan_venue]
    rw [← ih]
    congr 1
    induction ps generalizing a with
    | nil => rfl
    | cons p pr ihp => simp [ihp]

/-- One scan step leaves the fields unchanged except for a possible
simultaneous best-short update or best-long update. -/
lemma scan_pos_cases (sym ex : String) (a : BestLegs) (p : PosEntry) :
    (¬ p.symbol = sym ∧ scan_pos sym a ex p = a) ∨
    (p.symbol = sym ∧ p.size < -eps ∧ a.maxShortSize < |p.size| ∧
      scan_pos sym a ex p = { a with bestShortEx := some ex, maxShortSize := |p.size| }) ∨
    (p.symbol = sym ∧ p.size < -eps ∧ ¬ a.maxShortSize < |p.size| ∧
      scan_pos sym a ex p = a) ∨
    (p.symbol = sym ∧ ¬ p.size < -eps ∧ eps < p.size ∧ a.maxLongSize < p.size ∧
      scan_pos sym a ex p = { a with bestLongEx := some ex, maxLongSize := p.size }) ∨
    (p.symbol = sym ∧ ¬ p.size < -eps ∧ eps < p.size ∧ ¬ a.maxLongSize < p.size ∧
      scan_pos sym a ex p = a) ∨
    (p.symbol = sym ∧ ¬ p.size < -eps ∧ ¬ eps < p.size ∧
      scan_pos sym a ex p = a) := by
  unfold scan_pos
  by_cases hm : p.symbol = sym
  · by_cases hs : p.size < -eps
    · by_cases hgt : a.maxShortSize < |p.size|
      · exact Or.inr (Or.inl ⟨hm, hs, hgt, by rw [if_pos hm, if_pos hs, if_pos hgt]⟩)
      · exact Or.inr (Or.inr (Or.inl ⟨hm, hs, hgt,
          by rw [if_pos hm, if_pos hs, if_neg hgt]⟩))
    · by_cases hl : eps < p.size
      · by_cases hgt : a.maxLongSize < p.size
        · exact Or.inr (Or.inr (Or.inr (Or.inl ⟨hm, hs, hl, hgt,
            by rw [if_pos hm, if_neg hs, if_pos hl, if_pos hgt]⟩)))
        · exact Or.inr (Or.inr (Or.inr (Or.inr (Or.inl ⟨hm, hs, hl, hgt,
            by rw [if_pos hm, if_neg hs, if_pos hl, if_neg hgt]⟩))))
      · exact Or.inr (Or.inr (Or.inr (Or.inr (Or.inr ⟨hm, hs, hl,
          by rw [if_pos hm, if_neg hs, if_neg hl]⟩))))
  · exact Or.inl ⟨hm, by rw [if_neg hm]⟩

lemma flat_fold_cons (cfg : DynCfg) (vp : String × PosEntry)
    (L : List (String × PosEntry)) (a : BestLegs) :
    flat_fold cfg (vp :: L) a =
      flat_fold cfg L (scan_pos (cfg.exSym vp.1) a vp.1 vp.2) := rfl

lemma shortMags_cons (cfg : DynCfg) (vp : String × PosEntry)
    (L : List (String × PosEntry)) :
    shortMags cfg (vp :: L) =
      if vp.2.symbol = cfg.exSym vp.1 ∧ vp.2.size < -eps then
        |vp.2.size| :: shortMags cfg L
      else shortMags cfg L := by
  unfold shortMags
  rw [List.filterMap_cons]
  split_ifs with h <;> simp [h]

lemma longMags_cons (cfg : DynCfg) (vp : String × PosEntry)
    (L : List (String × PosEntry)) :
    longMags cfg (vp :: L) =
      if vp.2.symbol = cfg.exSym vp.1 ∧ eps < vp.2.size then
        vp.2.size :: longMags cfg L
      else longMags cfg L := by
  unfold longMags
  rw [List.filterMap_cons]
  split_ifs with h <;> simp [h]

/-- The folded best-short magnitude is the maximum of the starting magnitude
and all matching significant short magnitudes. -/
lemma flat_fold_maxShort (cfg : DynCfg) :
    ∀ (L : List (String × PosEntry)) (a : BestLegs), 0 ≤ a.maxShortSize →
      (flat_fold cfg L a).maxShortSize =
        max a.maxShortSize (qmax0 (shortMags cfg L)) := by
  intro L
  induction L with
  | nil =>
    intro a ha
    simp [flat_fold, shortMags, qmax0, max_eq_left ha]
  | cons vp L ih =>
    intro a ha
    rw [flat_fold_cons, shortMags_cons]
    rcases scan_pos_cases (cfg.exSym vp.1) vp.1 a vp.2 with
      ⟨hm, he⟩ | ⟨hm, hs, hgt, he⟩ | ⟨hm, hs, hgt, he⟩ |
      ⟨hm, hs, hl, hgt, he⟩ | ⟨hm, hs, hl, hgt, he⟩ | ⟨hm, hs, hl, he⟩
    · rw [he, if_neg (fun hc => hm hc.1), ih a ha]
    · rw [he, if_pos ⟨hm, hs⟩, qmax0_cons, ih _ (abs_nonneg _)]
      simp only [BestLegs.maxShortSize]
      rw [← max_assoc, max_eq_right (le_of_lt hgt)]
    · rw [he, if_pos ⟨hm, hs⟩, qmax0_cons, ih a ha, ← max_assoc,
        max_eq_left (not_lt.mp hgt)]
    · rw [he, if_neg (fun hc => hs hc.2),
        ih { a with bestLongEx := some vp.1, maxLongSize := vp.2.size } ha]
    · rw [he, if_neg (fun hc => hs hc.2), ih a ha]
    · rw [he, if_neg (fun hc => hs hc.2), ih a ha]

/-- The folded best-long magnitude is the maximum of the starting magnitude
and all matching significant long sizes. -/
lemma flat_fold_maxLong (cfg : DynCfg) :
    ∀ (L : List (String × PosEntry)) (a : BestLegs), 0 ≤ a.maxLongSize →
      (flat_fold cfg L a).maxLongSize =
        max a.maxLongSize (qmax0 (longMags cfg L)) := by
  intro L
  induction L with
  | nil =>
    intro a ha
    simp [flat_fold, longMags, qmax0, max_eq_left ha]
  | cons vp L ih =>
    intro a ha
    rw [flat_fold_cons, longMags_cons]
    rcases scan_pos_cases (cfg.exSym vp.1) vp.1 a vp.2 with
      ⟨hm, he⟩ | ⟨hm, hs, hgt, he⟩ | ⟨hm, hs, hgt, he⟩ |
      ⟨hm, hs, hl, hgt, he⟩ | ⟨hm, hs, hl, hgt, he⟩ | ⟨hm, hs, hl, he⟩
    · rw [he, if_neg (fun hc => hm hc.1), ih a ha]
    · rw [he, if_neg (fun hc => (not_lt.mpr (le_of_lt (lt_trans hs (by norm_num [eps])))) hc.2),
        ih { a with bestShortEx := some vp.1, maxShortSize := |vp.2.size| } ha]
    · rw [he, if_neg (fun hc => (not_lt.mpr (le_of_lt (lt_trans hs (by norm_num [eps])))) hc.2), ih a ha]
    · rw [he, if_pos ⟨hm, hl⟩, qmax0_cons, ih _ (le_trans ha (le_of_lt hgt))]
      simp only [BestLegs.maxLongSize]
      rw [← max_assoc, max_eq_right (le_of_lt hgt)]
    · rw [he, if_pos ⟨hm, hl⟩, qmax0_cons, ih a ha, ← max_assoc,
        max_eq_left (not_lt.mp hgt)]
    · rw [he, if_neg (fun hc => hl hc.2), ih a ha]

/-- A found best-short venue is never unset by further scanning. -/
lemma flat_fold_short_mono (cfg : DynCfg) :
    ∀ (L : List (String × PosEntry)) (a : BestLegs) (v : String),
      a.bestShortEx = some v →
      ∃ w, (flat_fold cfg L a).bestShortEx = some w := by
  intro L
  induction L with
  | nil => exact fun a v ha => ⟨v, ha⟩
  | cons vp L ih =>
    intro a v ha
    rw [flat_fold_cons]
    rcases scan_pos_cases (cfg.exSym vp.1) vp.1 a vp.2 with
      ⟨hm, he⟩ | ⟨hm, hs, hgt, he⟩ | ⟨hm, hs, hgt, he⟩ |
      ⟨hm, hs, hl, hgt, he⟩ | ⟨hm, hs, hl, hgt, he⟩ | ⟨hm, hs, hl, he⟩
    · rw [he]; exact ih a v ha
    · rw [he]; exact ih _ vp.1 rfl
    · rw [he]; exact ih a v ha
    · rw [he]; exact ih _ v ha
    · rw [he]; exact ih a v ha
    · rw [he]; exact ih a v ha

/-- A found best-long venue is never unset by further scanning. -/
lemma flat_fold_long_mono (cfg : DynCfg) :
    ∀ (L : List (String × PosEntry)) (a : BestLegs) (v : String),
      a.bestLongEx = some v →
      ∃ w, (flat_fold cfg L a).bestLongEx = some w := by
  intro L
  induction L with
  | nil => exact fun a v ha => ⟨v, ha⟩
  | cons vp L ih =>
    intro a v ha
    rw [flat_fold_cons]
    rcases scan_pos_cases (cfg.exSym vp.1) vp.1 a vp.2 with
      ⟨hm, he⟩ | ⟨hm, hs, hgt, he⟩ | ⟨hm, hs, hgt, he⟩ |
      ⟨hm, hs, hl, hgt, he⟩ | ⟨hm, hs, hl, hgt, he⟩ | ⟨hm, hs, hl, he⟩
    · rw [he]; exact ih a v ha
    · rw [he]; exact ih _ v ha
    · rw [he]; exact ih a v ha
    · rw [he]; exact ih _ vp.1 rfl
    · rw [he]; exact ih a v ha
    · rw [he]; exact ih a v ha

/-- The scan finds no short leg exactly when none started in the accumulator
and no matching significant short position exists. -/
lemma flat_fold_short_none (cfg : DynCfg) :
    ∀ (L : List (String × PosEntry)) (a : BestLegs),
      (a.bestShortEx = none → a.maxShortSize = 0) →
      ((flat_fold cfg L a).bestShortEx = none ↔
        a.bestShortEx = none ∧ shortMags cfg L = []) := by
  intro L
  induction L with
  | nil =>
    intro a h
    simp [flat_fold, shortMags]
  | cons vp L ih =>
    intro a h
    rw [flat_fold_cons, shortMags_cons]
    rcases scan_pos_cases (cfg.exSym vp.1) vp.1 a vp.2 with
      ⟨hm, he⟩ | ⟨hm, hs, hgt, he⟩ | ⟨hm, hs, hgt, he⟩ |
      ⟨hm, hs, hl, hgt, he⟩ | ⟨hm, hs, hl, hgt, he⟩ | ⟨hm, hs, hl, he⟩
    · rw [he, if_neg (fun hc => hm hc.1)]; exact ih a h
    · rw [he, if_pos ⟨hm, hs⟩]
      constructor
      · intro hnone
        obtain ⟨w, hw⟩ := flat_fold_short_mono cfg L
          { a with bestShortEx := some vp.1, maxShortSize := |vp.2.size| } vp.1 rfl
        rw [hw] at hnone
        cases hnone
      · rintro ⟨-, hcons⟩
        cases hcons
    · rw [he, if_pos ⟨hm, hs⟩]
      constructor
      · intro hnone
        obtain ⟨hbs, -⟩ := (ih a h).mp hnone
        have hms := h hbs
        rw [hms] at hgt
        have habs : (0 : ℚ) < |vp.2.size| := by
          rw [abs_pos]
          intro hzero
          rw [hzero] at hs
          norm_num [eps] at hs
        exact absurd habs hgt
      · rintro ⟨-, hcons⟩
        cases hcons
    · rw [he, if_neg (fun hc => hs hc.2)]
      simpa using ih { a with bestLongEx := some vp.1, maxLongSize := vp.2.size } h
    · rw [he, if_neg (fun hc => hs hc.2)]; exact ih a h
    · rw [he, if_neg (fun hc => hs hc.2)]; exact ih a h

/-- The scan finds no long leg exactly when none started in the accumulator
and no matching significant long position exists. -/
lemma flat_fold_long_none (cfg : DynCfg) :
    ∀ (L : List (String × PosEntry)) (a : BestLegs),
      (a.bestLongEx = none → a.maxLongSize = 0) →
      ((flat_fold cfg L a).bestLongEx = none ↔
        a.bestLongEx = none ∧ longMags cfg L = []) := by
  intro L
  induction L with
  | nil =>
    intro a h
    simp [flat_fold, longMags]
  | cons vp L ih =>
    intro a h
    rw [flat_fold_cons, longMags_cons]
    rcases scan_pos_cases (cfg.exSym vp.1) vp.1 a vp.2 with
      ⟨hm, he⟩ | ⟨hm, hs, hgt, he⟩ | ⟨hm, hs, hgt, he⟩ |
      ⟨hm, hs, hl, hgt, he⟩ | ⟨hm, hs, hl, hgt, he⟩ | ⟨hm, hs, hl, he⟩
    · rw [he, if_neg (fun hc => hm hc.1)]; exact ih a h
    · rw [he, if_neg (fun hc => (not_lt.mpr (le_of_lt (lt_trans hs (by norm_num [eps])))) hc.2)]
      simpa using ih { a with bestShortEx := some vp.1, maxShortSize := |vp.2.size| } h
    · rw [he, if_neg (fun hc => (not_lt.mpr (le_of_lt (lt_trans hs (by norm_num [eps])))) hc.2)]
      exact ih a h
    · rw [he, if_pos ⟨hm, hl⟩]
      constructor
      · intro hnone
        obtain ⟨w, hw⟩ := flat_fold_long_mono cfg L
          { a with bestLongEx := some vp.1, maxLongSize := vp.2.size } vp.1 rfl
        rw [hw] at hnone
        cases hnone
      · rintro ⟨-, hcons⟩
        cases hcons
    · rw [he, if_pos ⟨hm, hl⟩]
      constructor
      · intro hnone
        obtain ⟨hbl, -⟩ := (ih a h).mp hnone
        have hml := h hbl
        rw [hml] at hgt
        have : (0 : ℚ) < vp.2.size := lt_trans (by norm_num [eps]) hl
        exact absurd this hgt
      · rintro ⟨-, hcons⟩
        cases hcons
    · rw [he, if_neg (fun hc => hl hc.2)]; exact ih a h

/-- A found best-short venue actually holds a matching significant short
position of exactly the folded magnitude, unless it was already the
accumulator venue with the magnitude untouched. -/
lemma flat_fold_short_witness (cfg : DynCfg) :
    ∀ (L : List (String × PosEntry)) (a : BestLegs) (v : String),
      (flat_fold cfg L a).bestShortEx = some v →
      (a.bestShortEx = some v ∧
        (flat_fold cfg L a).maxShortSize = a.maxShortSize) ∨
      ∃ p : PosEntry, (v, p) ∈ L ∧ p.symbol = cfg.exSym v ∧ p.size < -eps ∧
        |p.size| = (flat_fold cfg L a).maxShortSize := by
  intro L
  induction L with
  | nil => exact fun a v hv => Or.inl ⟨hv, rfl⟩
  | cons vp L ih =>
    intro a v hv
    rw [flat_fold_cons] at hv ⊢
    rcases scan_pos_cases (cfg.exSym vp.1) vp.1 a vp.2 with
      ⟨hm, he⟩ | ⟨hm, hs, hgt, he⟩ | ⟨hm, hs, hgt, he⟩ |
      ⟨hm, hs, hl, hgt, he⟩ | ⟨hm, hs, hl, hgt, he⟩ | ⟨hm, hs, hl, he⟩
    · rw [he] at hv ⊢
      rcases ih a v hv with hL | ⟨p, hp, h1, h2, h3⟩
      · exact Or.inl hL
      · exact Or.inr ⟨p, List.mem_cons_of_mem _ hp, h1, h2, h3⟩
    · rw [he] at hv ⊢
      rcases ih _ v hv with ⟨hbs, hms⟩ | ⟨p, hp, h1, h2, h3⟩
      · have hv0 : vp.1 = v := by simpa using hbs
        subst hv0
        refine Or.inr ⟨vp.2, ?_, hm, hs, ?_⟩
        · exact List.mem_cons_self _ _
        · rw [hms]
      · exact Or.inr ⟨p, List.mem_cons_of_mem _ hp, h1, h2, h3⟩
    · rw [he] at hv ⊢
      rcases ih a v hv with hL | ⟨p, hp, h1, h2, h3⟩
      · exact Or.inl hL
      · exact Or.inr ⟨p, List.mem_cons_of_mem _ hp, h1, h2, h3⟩
    · rw [he] at hv ⊢
      rcases ih _ v hv with ⟨hbs, hms⟩ | ⟨p, hp, h1, h2, h3⟩
      · exact Or.inl ⟨by simpa using hbs, by simpa using hms⟩
      · exact Or.inr ⟨p, List.mem_cons_of_mem _ hp, h1, h2, h3⟩
    · rw [he] at hv ⊢
      rcases ih a v hv with hL | ⟨p, hp, h1, h2, h3⟩
      · exact Or.inl hL
      · exact Or.inr ⟨p, List.mem_cons_of_mem _ hp, h1, h2, h3⟩
    · rw [he] at hv ⊢
      rcases ih a v hv with hL | ⟨p, hp, h1, h2, h3⟩
      · exact Or.inl hL
      · exact Or.inr ⟨p, List.mem_cons_of_mem _ hp, h1, h2, h3⟩

/-- A found best-long venue actually holds a matching significant long
position of exactly the folded size, unless it was already the accumulator
venue with the size untouched. -/
lemma flat_fold_long_witness (cfg : DynCfg) :
    ∀ (L : List (String × PosEntry)) (a : BestLegs) (v : String),
      (flat_fold cfg L a).bestLongEx = some v →
      (a.bestLongEx = some v ∧
        (flat_fold cfg L a).maxLongSize = a.maxLongSize) ∨
      ∃ p : PosEntry, (v, p) ∈ L ∧ p.symbol = cfg.exSym v ∧ eps < p.size ∧
        p.size = (flat_fold cfg L a).maxLongSize := by
  intro L
  induction L with
  | nil => exact fun a v hv => Or.inl ⟨hv, rfl⟩
  | cons vp L ih =>
    intro a v hv
    rw [flat_fold_cons] at hv ⊢
    rcases scan_pos_cases (cfg.exSym vp.1) vp.1 a vp.2 with
      ⟨hm, he⟩ | ⟨hm, hs, hgt, he⟩ | ⟨hm, hs, hgt, he⟩ |
      ⟨hm, hs, hl, hgt, he⟩ | ⟨hm, hs, hl, hgt, he⟩ | ⟨hm, hs, hl, he⟩
    · rw [he] at hv ⊢
      rcases ih a v hv with hL | ⟨p, hp, h1, h2, h3⟩
      · exact Or.inl hL
      · exact Or.inr ⟨p, List.mem_cons_of_mem _ hp, h1, h2, h3⟩
    · rw [he] at hv ⊢
      rcases ih _ v hv with ⟨hbs, hms⟩ | ⟨p, hp, h1, h2, h3⟩
      · exact Or.inl ⟨by simpa using hbs, by simpa using hms⟩
      · exact Or.inr ⟨p, List.mem_cons_of_mem _ hp, h1, h2, h3⟩
    · rw [he] at hv ⊢
      rcases ih a v hv with hL | ⟨p, hp, h1, h2, h3⟩
      · exact Or.inl hL
      · exact Or.inr ⟨p, List.mem_cons_of_mem _ hp, h1, h2, h3⟩
    · rw [he] at hv ⊢
      rcases ih _ v hv with ⟨hbs, hms⟩ | ⟨p, hp, h1, h2, h3⟩
      · have hv0 : vp.1 = v := by simpa using hbs
        subst hv0
        refine Or.inr ⟨vp.2, ?_, hm, hl, ?_⟩
        · exact List.mem_cons_self _ _
        · rw [hms]
      · exact Or.inr ⟨p, List.mem_cons_of_mem _ hp, h1, h2, h3⟩
    · rw [he] at hv ⊢
      rcases ih a v hv with hL | ⟨p, hp, h1, h2, h3⟩
      · exact Or.inl hL
      · exact Or.inr ⟨p, List.mem_cons_of_mem _ hp, h1, h2, h3⟩
    · rw [he] at hv ⊢
      rcases ih a v hv with hL | ⟨p, hp, h1, h2, h3⟩
      · exact Or.inl hL
      · exact Or.inr ⟨p, List.mem_cons_of_mem _ hp, h1, h2, h3⟩

/-- The successful result list of an all-successful reconciliation. -/
def okResults (results : List (String × List PosEntry)) :
    List (String × Except Unit (List PosEntry)) :=
  results.map fun r => (r.1, Except.ok r.2)

/-- An unbalanced flat strategy takes no action, whatever the cycle input:
the exit path needs a tracked pair and the entry path is disabled. -/
lemma dyn_cycle_unbalanced_inert (cfg : DynCfg) (inp : DynInput) :
    dyn_check_opportunity cfg ⟨none, 0, true⟩ inp = (⟨none, 0, true⟩, []) := by
  unfold dyn_check_opportunity
  by_cases he : (dyn_ex_rates inp.rates).isEmpty = true
  · simp [he]
  · simp only [he, Bool.false_eq_true, if_false]
    rcases inp.price with e | price
    · rfl
    · unfold dyn_try_enter
      rfl

/-- C5. N-venue reconciliation over the per-venue positions matching the
target symbol: the scanned short and long magnitudes are exactly the maxima
over the matching significant legs; a leg is missing exactly when no such
position exists; a found venue really holds a matching leg of the maximal
magnitude; when both legs exist the tracked state is the (short, long) pair
with size the smaller magnitude; when exactly one exists, the strategy is
flat-but-unbalanced and every subsequent cycle is inert — no entry and no
auto-flattening. -/
theorem n_venue_reconciliation (cfg : DynCfg)
    (results : List (String × List PosEntry)) (vs vl : String) :
    (scan_results cfg (okResults results)).maxShortSize =
      qmax0 (shortMags cfg (flatten results)) ∧
    (scan_results cfg (okResults results)).maxLongSize =
      qmax0 (longMags cfg (flatten results)) ∧
    ((scan_results cfg (okResults results)).bestShortEx = none ↔
      shortMags cfg (flatten results) = []) ∧
    ((scan_results cfg (okResults results)).bestLongEx = none ↔
      longMags cfg (flatten results) = []) ∧
    ((scan_results cfg (okResults results)).bestShortEx = some vs →
      ∃ p : PosEntry, (vs, p) ∈ flatten results ∧ p.symbol = cfg.exSym vs ∧
        p.size < -eps ∧
        |p.size| = (scan_results cfg (okResults results)).maxShortSize) ∧
    ((scan_results cfg (okResults results)).bestLongEx = some vl →
      ∃ p : PosEntry, (vl, p) ∈ flatten results ∧ p.symbol = cfg.exSym vl ∧
        eps < p.size ∧
        p.size = (scan_results cfg (okResults results)).maxLongSize) ∧
    ((scan_results cfg (okResults results)).bestShortEx = some vs →
      (scan_results cfg (okResults results)).bestLongEx = some vl →
      sync_state_from_exchanges cfg (okResults results) =
        ⟨some (vs, vl), min (scan_results cfg (okResults results)).maxShortSize
          (scan_results cfg (okResults results)).maxLongSize, false⟩) ∧
    ((scan_results cfg (okResults results)).bestShortEx = some vs →
      (scan_results cfg (okResults results)).bestLongEx = none →
      sync_state_from_exchanges cfg (okResults results) = ⟨none, 0, true⟩) ∧
    ((scan_results cfg (okResults results)).bestShortEx = none →
      (scan_results cfg (okResults results)).bestLongEx = some vl →
      sync_state_from_exchanges cfg (okResults results) = ⟨none, 0, true⟩) ∧
    (∀ inp, dyn_check_opportunity cfg ⟨none, 0, true⟩ inp =
      (⟨none, 0, true⟩, [])) := by
  have heq : scan_results cfg (okResults results) =
      flat_fold cfg (flatten results) ⟨none, 0, none, 0⟩ :=
    scan_results_eq_flat cfg results
  refine ⟨?_, ?_, ?_, ?_, ?_, ?_, ?_, ?_, ?_, dyn_cycle_unbalanced_inert cfg⟩
  · rw [heq, flat_fold_maxShort cfg (flatten results) _ le_rfl]
    exact max_eq_right (qmax0_nonneg _)
  · rw [heq, flat_fold_maxLong cfg (flatten results) _ le_rfl]
    exact max_eq_right (qmax0_nonneg _)
  · rw [heq, flat_fold_short_none cfg (flatten results) _ (fun _ => rfl)]
    simp
  · rw [heq, flat_fold_long_none cfg (flatten results) _ (fun _ => rfl)]
    simp
  · rw [heq]
    intro hv
    rcases flat_fold_short_witness cfg (flatten results) _ vs hv with ⟨hbs, -⟩ | hw
    · cases hbs
    · exact hw
  · rw [heq]
    intro hv
    rcases flat_fold_long_witness cfg (flatten results) _ vl hv with ⟨hbl, -⟩ | hw
    · cases hbl
    · exact hw
  · intro hs hl
    unfold sync_state_from_exchanges
    simp only [hs, hl]
  · intro hs hl
    unfold sync_state_from_exchanges
    simp only [hs, hl]
  · intro hs hl
    unfold sync_state_from_exchanges
    simp only [hs, hl]

/-- The concrete reconciliation of the C5 witness: a 5-contract short on one
venue, a 3-contract long on another. -/
def resBal : List (String × List PosEntry) :=
  [("lighter", [⟨"SOL-USDC", -5, 100⟩]), ("backpack", [⟨"SOL-USDC", 3, 100⟩])]

/-- C5 witness: on the concrete balanced reconciliation the scan finds the
short venue with magnitude 5 and the long venue with size 3, the tracked
state is the pair with size 3 = min(5, 3), and a concrete unbalanced flat
state is inert for a concrete input. -/
theorem n_venue_reconciliation_witness :
    (scan_results dcfgW (okResults resBal)).maxShortSize =
      qmax0 (shortMags dcfgW (flatten resBal)) ∧
    sync_state_from_exchanges dcfgW (okResults resBal) =
      ⟨some ("lighter", "backpack"),
        min (scan_results dcfgW (okResults resBal)).maxShortSize
          (scan_results dcfgW (okResults resBal)).maxLongSize, false⟩ ∧
    (∃ p : PosEntry, ("lighter", p) ∈ flatten resBal ∧
      p.symbol = dcfgW.exSym "lighter" ∧ p.size < -eps ∧
      |p.size| = (scan_results dcfgW (okResults resBal)).maxShortSize) ∧
    dyn_check_opportunity dcfgW ⟨none, 0, true⟩ dinpW = (⟨none, 0, true⟩, []) := by
  have hscan : scan_results dcfgW (okResults resBal) =
      ⟨some "lighter", 5, some "backpack", 3⟩ := by
    norm_num [scan_results, okResults, resBal, scan_venue, scan_pos, dcfgW,
      exSymW, eps]
  have h := n_venue_reconciliation dcfgW resBal "lighter" "backpack"
  refine ⟨h.1, ?_, ?_, h.2.2.2.2.2.2.2.2.2 dinpW⟩
  · have := h.2.2.2.2.2.2.1 (by rw [hscan]) (by rw [hscan])
    exact this
  · exact h.2.2.2.2.1 (by rw [hscan])

end FundingBot
